import Mathlib

/-!
# nsjail `mount.c`: a verification development

A shallow embedding of the `CLONE_NEWNS` routines of nsjail (`src/mount.c`):
the flag printer `mountFlagsToStr`, the registry `mountAddMountPt`, the
executor `mountMount` / `mountRemountRO` and the orchestrator
`mountInitNsInternal`.

Conventions of the embedding.

* `uintptr_t` / `unsigned long` are 64-bit words (LP64), carried as `Nat`
  below `2 ^ 64`; bitwise complement is taken inside the word (`notW`).
* A C string pointer is an `Option String` (`none` is `NULL`); a string is
  carried one `Char` per byte.
* Every call that leaves the translation unit for the kernel or libc is
  answered by an oracle (`World`) that sees the history of earlier calls, and
  is recorded, with the function invocation that issued it, in a trace.
* The `MS_*` constants are those of `<sys/mount.h>`.
-/

namespace NsJail

/-! ## Constants of `<sys/mount.h>`, `<limits.h>`, `<errno.h>`, `<fcntl.h>` -/

def MS_RDONLY : Nat := 1
def MS_NOSUID : Nat := 2
def MS_NODEV : Nat := 4
def MS_NOEXEC : Nat := 8
def MS_SYNCHRONOUS : Nat := 16
def MS_REMOUNT : Nat := 32
def MS_MANDLOCK : Nat := 64
def MS_DIRSYNC : Nat := 128
def MS_NOATIME : Nat := 1024
def MS_NODIRATIME : Nat := 2048
def MS_BIND : Nat := 4096
def MS_MOVE : Nat := 8192
def MS_REC : Nat := 16384
def MS_SILENT : Nat := 32768
def MS_POSIXACL : Nat := 65536
def MS_UNBINDABLE : Nat := 131072
def MS_PRIVATE : Nat := 262144
def MS_SLAVE : Nat := 524288
def MS_SHARED : Nat := 1048576
def MS_RELATIME : Nat := 2097152
def MS_KERNMOUNT : Nat := 4194304
def MS_I_VERSION : Nat := 8388608
def MS_STRICTATIME : Nat := 16777216
/-- The fallback of `mount.c` itself: `#define MS_LAZYTIME (1<<25)`. -/
def MS_LAZYTIME : Nat := 33554432

def MNT_DETACH : Nat := 2
def PATH_MAX : Nat := 4096
def EEXIST : Nat := 17
def O_RDONLY : Nat := 0
def O_CREAT : Nat := 64
def O_CLOEXEC : Nat := 524288
def S_IFMT : Nat := 61440
def S_IFDIR : Nat := 16384

/-- Width of `uintptr_t` and `unsigned long`. -/
def wordBits : Nat := 64

/-- The largest word, `~0UL`. -/
def wordMax : Nat := 2 ^ wordBits - 1

/-- Bitwise complement `~x` of a word. -/
def notW (x : Nat) : Nat := wordMax ^^^ (x % 2 ^ wordBits)

/-! ## Text buffers -/

/-- Modelled from the spec: utilSSnPrintf of util.c is not part of the source
at hand. The spec names it a safe formatted-copy whose output is bounded and
truncated on overflow: it appends the formatted text `s` to the C string held
in a buffer of `size` bytes and keeps at most `size - 1` characters. -/
def utilSSnPrintf (str : List Char) (size : Nat) (s : List Char) : List Char :=
  (str ++ s).take (size - 1)

/-- One lowercase hexadecimal digit, as printf's `x` conversion writes it. -/
def hexDigit (d : Nat) : Char :=
  if d < 10 then Char.ofNat (48 + d) else Char.ofNat (87 + d)

/-- Hexadecimal digits of `n`, least significant first, at most `fuel` of them
(sixteen digits hold every 64-bit word). -/
def hexDigitsRev : Nat → Nat → List Char
  | 0, _ => []
  | fuel + 1, n => if n = 0 then [] else hexDigit (n % 16) :: hexDigitsRev fuel (n / 16)

/-- The libc conversion `%#tx` of a word: `0` is written `0`, any other value
as `0x` followed by its lowercase hexadecimal digits without leading zeros. -/
def fmtHex (n : Nat) : List Char :=
  if n = 0 then ['0'] else '0' :: 'x' :: (hexDigitsRev 16 n).reverse

/-- The table `mountFlags[]` of `mountFlagsToStr`: `VALSTR_STRUCT(x)` is
`{ x, #x }`. -/
def mountFlags : List (Nat × List Char) :=
  [ (MS_RDONLY, "MS_RDONLY".toList),
    (MS_NOSUID, "MS_NOSUID".toList),
    (MS_NODEV, "MS_NODEV".toList),
    (MS_NOEXEC, "MS_NOEXEC".toList),
    (MS_SYNCHRONOUS, "MS_SYNCHRONOUS".toList),
    (MS_REMOUNT, "MS_REMOUNT".toList),
    (MS_MANDLOCK, "MS_MANDLOCK".toList),
    (MS_DIRSYNC, "MS_DIRSYNC".toList),
    (MS_NOATIME, "MS_NOATIME".toList),
    (MS_NODIRATIME, "MS_NODIRATIME".toList),
    (MS_BIND, "MS_BIND".toList),
    (MS_MOVE, "MS_MOVE".toList),
    (MS_REC, "MS_REC".toList),
    (MS_SILENT, "MS_SILENT".toList),
    (MS_POSIXACL, "MS_POSIXACL".toList),
    (MS_UNBINDABLE, "MS_UNBINDABLE".toList),
    (MS_PRIVATE, "MS_PRIVATE".toList),
    (MS_SLAVE, "MS_SLAVE".toList),
    (MS_SHARED, "MS_SHARED".toList),
    (MS_RELATIME, "MS_RELATIME".toList),
    (MS_KERNMOUNT, "MS_KERNMOUNT".toList),
    (MS_I_VERSION, "MS_I_VERSION".toList),
    (MS_STRICTATIME, "MS_STRICTATIME".toList),
    (MS_LAZYTIME, "MS_LAZYTIME".toList) ]

/-- The first loop of `mountFlagsToStr` over a table: each entry whose flag
meets `flags` appends `name|` to the buffer. -/
def appendFlagNames (flags : Nat) (tbl : List (Nat × List Char)) (buf : List Char) : List Char :=
  tbl.foldl (fun b e => if flags &&& e.1 ≠ 0 then utilSSnPrintf b 1024 (e.2 ++ ['|']) else b) buf

/-- The second loop of `mountFlagsToStr`: the OR of every flag of the table. -/
def knownFlagMaskOf (tbl : List (Nat × List Char)) : Nat :=
  tbl.foldl (fun m e => m ||| e.1) 0

/-- The source's `knownFlagMask` once the second loop has run. -/
def knownFlagMask : Nat := knownFlagMaskOf mountFlags

/-- The function `mountFlagsToStr`: the content of the 1024-byte buffer
`mountFlagsStr` on return. -/
def mountFlagsToStr (flags : Nat) : List Char :=
  let mountFlagsStr : List Char := []
  let mountFlagsStr := appendFlagNames flags mountFlags mountFlagsStr
  utilSSnPrintf mountFlagsStr 1024 (fmtHex (flags &&& notW knownFlagMask))

/-! ### Reading the text back (the parser of the round-trip property) -/

/-- Split a text at every `|`. -/
def splitBar : List Char → List (List Char)
  | [] => [[]]
  | c :: cs =>
    if c = '|' then [] :: splitBar cs
    else match splitBar cs with
      | [] => [[c]]
      | s :: ss => (c :: s) :: ss

/-- The flag a name of the table stands for, if it is one. -/
def lookupFlagName (s : List Char) : Option Nat :=
  (mountFlags.find? (fun e => e.2 = s)).map Prod.fst

/-- OR of the values of the recognised names among the segments. -/
def orFlagNames (segs : List (List Char)) : Nat :=
  segs.foldl (fun acc s => match lookupFlagName s with
    | some f => acc ||| f
    | none => acc) 0

/-- Value of one hexadecimal digit. -/
def hexVal (c : Char) : Nat :=
  if c.toNat < 58 then c.toNat - 48 else c.toNat - 87

/-- Value of a digit string, least significant digit first. -/
def parseHexRev : List Char → Nat
  | [] => 0
  | c :: cs => hexVal c + 16 * parseHexRev cs

/-- Value of a `0x...` literal (or of the bare `0`). -/
def parseHex : List Char → Nat
  | '0' :: 'x' :: ds => parseHexRev ds.reverse
  | _ => 0

/-- Entries of a table whose flag meets `flags`, in table order. -/
def selectedFlags (flags : Nat) (tbl : List (Nat × List Char)) : List (Nat × List Char) :=
  tbl.filter (fun e => flags &&& e.1 ≠ 0)

/-- Text of the selected names, each followed by the separator. -/
def namesText (sel : List (Nat × List Char)) : List Char :=
  (sel.map (fun e => e.2 ++ ['|'])).flatten

/-- Room taken by a table when every name is printed. -/
def tableRoom (tbl : List (Nat × List Char)) : Nat :=
  (tbl.map (fun e => e.2.length + 1)).sum

/-! ## The mount-point data model (`struct mounts_t`, `struct nsjconf_t`) -/

/-- One registered mount point. The declaration lives in a header that is not
part of the source at hand; the fields are those `mount.c` reads and writes. -/
structure mounts_t where
  src : Option String
  dst : Option String
  fs_type : Option String
  options : Option String
  flags : Nat
  isDir : Bool
  mandatory : Bool
  src_content : Option (List Nat)
  src_content_len : Nat
  deriving DecidableEq, Repr

/-- The part of the session configuration that `mount.c` uses; `mountpts` is
the `TAILQ` of mount points, head first. -/
structure nsjconf_t where
  clone_newns : Bool
  chroot : Option String
  cwd : Option String
  mountpts : List mounts_t
  deriving DecidableEq, Repr

/-! ## Calls that leave the translation unit -/

/-- A call to the kernel, to libc or to a utility of `util.c`, with its
arguments. Calls made through glibc's `TEMP_FAILURE_RETRY` stand for the
retried call as a whole. -/
inductive Call where
  | getenv (name : String)
  | asprintf (text : String)
  | realpath (path : String)
  | stat (path : String)
  | statvfs (path : Option String)
  | utilCreateDirRecursively (path : String)
  | mkdir (path : String) (mode : Nat)
  | openFile (path : String) (flags mode : Nat)
  | close (fd : Int)
  | mkostemp (template : String) (flags : Nat)
  | utilWriteToFd (fd : Int) (buf : List Nat) (len : Nat)
  | unlink (path : String)
  | mount (source target fstype : Option String) (flags : Nat) (data : Option String)
  | umount2 (target : String) (flags : Nat)
  | pivot_root (new_root put_old : String)
  | chroot (path : Option String)
  | chdir (path : Option String)
  deriving DecidableEq, Repr

/-- What a call gives back: its return value (`1`/`0` for the `bool` of a
utility), `errno`, a word it fills in (`st_mode` for `stat`, `f_flag` for
`statvfs`) and a string it produces (the value for `getenv`, the resolved path
for `realpath`, the file name written over the template for `mkostemp`). -/
structure Ret where
  rc : Int
  errno : Nat
  data : Nat
  str : Option String
  deriving DecidableEq, Repr

/-- The function invocation that issues a call. -/
inductive Frame where
  | mountIsDir (path : Option String)
  | mountMount (mpt : mounts_t)
  | mountRemountRO (mpt : mounts_t)
  | mountInitNsInternal
  | mountAddMountPt
  deriving DecidableEq, Repr

/-- One entry of the trace: who called what, and the answer. -/
structure Event where
  frame : Frame
  call : Call
  ret : Ret
  deriving DecidableEq, Repr

/-- The environment: the answer to a call, given everything that happened
before it. -/
abbrev World := List Event → Call → Ret

/-- Issue a call: ask the environment and record the event. -/
def sys (w : World) (fr : Frame) (c : Call) (t : List Event) : Ret × List Event :=
  (w t c, t ++ [⟨fr, c, w t c⟩])

/-- The libc call `snprintf(buf, size, "%s", s)`: at most `size - 1` bytes are
kept. A C string is carried one `Char` per byte, so the bytes kept are the
first `size - 1` characters. -/
def snprintf (size : Nat) (s : String) : String :=
  String.mk (s.data.take (size - 1))

/-- What glibc's `%s` prints for a string pointer. -/
def cstr (s : Option String) : String :=
  s.getD "(null)"

/-- Modelled from the spec: utilStrDup of util.c is not part of the source at
hand; the spec lists it among the heap-duplication utilities used as plain
library calls. It copies the string, and a `NULL` stays `NULL`. -/
def utilStrDup (s : Option String) : Option String := s

/-- Modelled from the spec: utilMemDup of util.c is not part of the source at
hand; registration copies the inline content into an owned buffer, and an
absent buffer is valid and stays absent. -/
def utilMemDup (src : Option (List Nat)) (len : Nat) : Option (List Nat) :=
  src.map (fun b => b.take len)

/-! ## `mountIsDir` -/

def mountIsDir (w : World) (path : Option String) (t : List Event) : Bool × List Event :=
  match path with
  | none => (true, t)
  | some p =>
    let st := sys w (Frame.mountIsDir path) (Call.stat p) t
    if st.1.rc = -1 then (false, st.2)
    else if st.1.data &&& S_IFMT = S_IFDIR then (true, st.2)
    else (false, st.2)

/-! ## `mountMount` -/

/-- The body of `mountMount` up to the `src_content` block: the destination's
parent directories and the destination node. `false` is the early
`return false`. -/
def mountMountNode (w : World) (mpt : mounts_t) (dst : String) (t : List Event) :
    Bool × List Event :=
  let fr := Frame.mountMount mpt
  if mpt.isDir = true then
    let d := sys w fr (Call.utilCreateDirRecursively dst) t
    if d.1.rc = 0 then (false, d.2)
    else (true, (sys w fr (Call.mkdir dst 457) d.2).2)
  else
    let d := sys w fr (Call.utilCreateDirRecursively dst) t
    if d.1.rc = 0 then (false, d.2)
    else
      let f := sys w fr (Call.openFile dst (O_CREAT ||| O_RDONLY ||| O_CLOEXEC) 420) d.2
      if f.1.rc ≥ 0 then (true, (sys w fr (Call.close f.1.rc) f.2).2)
      else (true, f.2)

/-- The `if (mpt->src_content)` block of `mountMount`: `none` is one of its
two `return false`; otherwise the source path and the entry as they stand
after the block. -/
def mountMountContent (w : World) (mpt : mounts_t) (srcpath tmpdir : String) (t : List Event) :
    Option (String × mounts_t) × List Event :=
  let fr := Frame.mountMount mpt
  match mpt.src_content with
  | some buf =>
    let template := snprintf PATH_MAX (tmpdir ++ "/file.XXXXXX")
    let m := sys w fr (Call.mkostemp template O_CLOEXEC) t
    if m.1.rc < 0 then (none, (sys w fr (Call.close m.1.rc) m.2).2)
    else
      let wr := sys w fr (Call.utilWriteToFd m.1.rc buf mpt.src_content_len) m.2
      if wr.1.rc = 0 then (none, (sys w fr (Call.close m.1.rc) wr.2).2)
      else
        (some (m.1.str.getD template, { mpt with flags := mpt.flags ||| (MS_BIND ||| MS_REC) }),
          (sys w fr (Call.close m.1.rc) wr.2).2)
  | none => (some (srcpath, mpt), t)

/-- The first lines of `mountMount`: the buffer `dst`. -/
def mountMountDst (mpt : mounts_t) (newroot : String) : String :=
  snprintf PATH_MAX (newroot ++ "/" ++ cstr mpt.dst)

/-- The first lines of `mountMount`: the buffer `srcpath` before the
`src_content` block. -/
def mountMountSrcpath (mpt : mounts_t) : String :=
  match mpt.src with
  | some s => if s.length > 0 then snprintf PATH_MAX s else snprintf PATH_MAX "none"
  | none => snprintf PATH_MAX "none"

/-- The function `mountMount`. The result carries the entry back, because the
`src_content` block writes `mpt->flags`. -/
def mountMount (w : World) (mpt : mounts_t) (newroot tmpdir : String) (t : List Event) :
    (Bool × mounts_t) × List Event :=
  let fr := Frame.mountMount mpt
  let dst := mountMountDst mpt newroot
  let node := mountMountNode w mpt dst t
  if node.1 = false then ((false, mpt), node.2)
  else
    let content := mountMountContent w mpt (mountMountSrcpath mpt) tmpdir node.2
    match content.1 with
    | none => ((false, mpt), content.2)
    | some (srcpath, mpt) =>
      let flags := mpt.flags &&& notW MS_RDONLY
      let mnt := sys w fr (Call.mount (some srcpath) (some dst) mpt.fs_type flags mpt.options)
        content.2
      if mnt.1.rc = -1 ∧ mpt.mandatory = true then ((false, mpt), mnt.2)
      else if mpt.src_content.isSome then
        ((true, mpt), (sys w fr (Call.unlink srcpath) mnt.2).2)
      else ((true, mpt), mnt.2)

/-! ## `mountRemountRO` -/

def mountRemountRO (w : World) (mpt : mounts_t) (t : List Event) : Bool × List Event :=
  let fr := Frame.mountRemountRO mpt
  if mpt.flags &&& MS_RDONLY = 0 then (true, t)
  else
    let vfs := sys w fr (Call.statvfs mpt.dst) t
    if vfs.1.rc = -1 then
      if mpt.mandatory = true then (false, vfs.2) else (true, vfs.2)
    else
      let new_flags := MS_REMOUNT ||| MS_RDONLY ||| vfs.1.data
      let m := sys w fr (Call.mount mpt.dst mpt.dst none new_flags none) vfs.2
      if m.1.rc = -1 then
        if mpt.mandatory = true then (false, m.2) else (true, m.2)
      else (true, m.2)

/-! ## `mountInitNsInternal` -/

/-- The first `TAILQ_FOREACH` of `mountInitNsInternal`: `mountMount` on each
entry in turn, stopping at the first `false`. The list comes back with the
writes `mountMount` made to the entries it visited. -/
def mountPass (w : World) (destdir tmpdir : String) :
    List mounts_t → List Event → (Bool × List mounts_t) × List Event
  | [], t => ((true, []), t)
  | p :: ps, t =>
    let r := mountMount w p destdir tmpdir t
    if r.1.1 = false then ((false, r.1.2 :: ps), r.2)
    else
      let rest := mountPass w destdir tmpdir ps r.2
      ((rest.1.1, r.1.2 :: rest.1.2), rest.2)

/-- The second `TAILQ_FOREACH` of `mountInitNsInternal`: `mountRemountRO` on
each entry in turn, stopping at the first `false`. -/
def remountPass (w : World) : List mounts_t → List Event → Bool × List Event
  | [], t => (true, t)
  | p :: ps, t =>
    let r := mountRemountRO w p t
    if r.1 = false then (false, r.2) else remountPass w ps r.2

/-- The staging block of `mountInitNsInternal` (from the `chdir("/")` of the
isolated path to the second tmpfs mount): `false` is one of its five
`return false`. -/
def mountInitNsStaging (w : World) (destdir tmpdir : String) (t : List Event) :
    Bool × List Event :=
  let fr := Frame.mountInitNsInternal
  let cd := sys w fr (Call.chdir (some "/")) t
  if cd.1.rc = -1 then (false, cd.2)
  else
    let mk1 := sys w fr (Call.mkdir destdir 493) cd.2
    if mk1.1.rc = -1 ∧ mk1.1.errno ≠ EEXIST then (false, mk1.2)
    else
      let mt1 := sys w fr
        (Call.mount none (some destdir) (some "tmpfs") 0 (some "size=16777216")) mk1.2
      if mt1.1.rc = -1 then (false, mt1.2)
      else
        let mk2 := sys w fr (Call.mkdir tmpdir 493) mt1.2
        if mk2.1.rc = -1 ∧ mk2.1.errno ≠ EEXIST then (false, mk2.2)
        else
          let mt2 := sys w fr
            (Call.mount none (some tmpdir) (some "tmpfs") 0 (some "size=16777216")) mk2.2
          if mt2.1.rc = -1 then (false, mt2.2) else (true, mt2.2)

/-- The pivot block of `mountInitNsInternal` (from `umount2(tmpdir)` to
`chdir(nsjconf->cwd)`): `false` is one of its four `return false`. -/
def mountInitNsPivot (w : World) (cwd : Option String) (destdir tmpdir : String)
    (t : List Event) : Bool × List Event :=
  let fr := Frame.mountInitNsInternal
  let um1 := sys w fr (Call.umount2 tmpdir MNT_DETACH) t
  if um1.1.rc = -1 then (false, um1.2)
  else
    let pv := sys w fr (Call.pivot_root destdir destdir) um1.2
    if pv.1.rc = -1 then (false, pv.2)
    else
      let um2 := sys w fr (Call.umount2 "/" MNT_DETACH) pv.2
      if um2.1.rc = -1 then (false, um2.2)
      else
        let cw := sys w fr (Call.chdir cwd) um2.2
        if cw.1.rc = -1 then (false, cw.2) else (true, cw.2)

/-- The function `mountInitNsInternal`. The configuration comes back with the
writes the mount pass made to the entries. -/
def mountInitNsInternal (w : World) (nsjconf : nsjconf_t) (t : List Event) :
    (Bool × nsjconf_t) × List Event :=
  let fr := Frame.mountInitNsInternal
  if nsjconf.clone_newns = false then
    let cr := sys w fr (Call.chroot nsjconf.chroot) t
    if cr.1.rc = -1 then ((false, nsjconf), cr.2)
    else
      let cd := sys w fr (Call.chdir (some "/")) cr.2
      if cd.1.rc = -1 then ((false, nsjconf), cd.2) else ((true, nsjconf), cd.2)
  else
    let destdir := "/tmp/nsjail.root"
    let tmpdir := "/tmp/nsjail.tmp"
    let st := mountInitNsStaging w destdir tmpdir t
    if st.1 = false then ((false, nsjconf), st.2)
    else
      let pass := mountPass w destdir tmpdir nsjconf.mountpts st.2
      let nsjconf := { nsjconf with mountpts := pass.1.2 }
      if pass.1.1 = false then ((false, nsjconf), pass.2)
      else
        let pv := mountInitNsPivot w nsjconf.cwd destdir tmpdir pass.2
        if pv.1 = false then ((false, nsjconf), pv.2)
        else
          let ro := remountPass w nsjconf.mountpts pv.2
          ((ro.1, nsjconf), ro.2)

/-! ## `mountAddMountPt` -/

/-- The `if (src_env) ... else ...` block of `mountAddMountPt` (and, with the
destination's arguments, the `dst_env` block, which is the same code): `none`
is one of its two `return false`; otherwise the string stored in the entry. -/
def mountAddEnvPath (w : World) (path env : Option String) (t : List Event) :
    Option (Option String) × List Event :=
  let fr := Frame.mountAddMountPt
  match env with
  | some v =>
    let e := sys w fr (Call.getenv v) t
    match e.1.str with
    | none => (none, e.2)
    | some val =>
      let a := sys w fr (Call.asprintf (val ++ path.getD "")) e.2
      if a.1.rc = -1 then (none, a.2) else (some (some (val ++ path.getD "")), a.2)
  | none => (some (utilStrDup path), t)

/-- The realpath block of `mountAddMountPt`: the source as stored. -/
def mountAddRealpath (w : World) (src : Option String) (flags : Nat) (t : List Event) :
    Option String × List Event :=
  match src with
  | some s =>
    if flags &&& MS_BIND ≠ 0 then
      let rp := sys w Frame.mountAddMountPt (Call.realpath s) t
      match rp.1.str with
      | some r => (some r, rp.2)
      | none => (some s, rp.2)
    else (some s, t)
  | none => (none, t)

/-- The `isDir` block of `mountAddMountPt`. -/
def mountAddIsDir (w : World) (psrc : Option String) (pflags : Nat) (isDir : Option Bool)
    (src_content : Option (List Nat)) (t : List Event) : Bool × List Event :=
  match isDir with
  | some b => (b, t)
  | none =>
    if src_content.isSome then (false, t)
    else if psrc = none then (true, t)
    else if pflags &&& MS_BIND ≠ 0 then mountIsDir w psrc t
    else (true, t)

def mountAddMountPt (w : World) (nsjconf : nsjconf_t) (src dst fstype options : Option String)
    (flags : Nat) (isDir : Option Bool) (mandatory : Bool) (src_env dst_env : Option String)
    (src_content : Option (List Nat)) (src_content_len : Nat) (t : List Event) :
    (Bool × nsjconf_t) × List Event :=
  let s := mountAddEnvPath w src src_env t
  match s.1 with
  | none => ((false, nsjconf), s.2)
  | some psrc =>
    let d := mountAddEnvPath w dst dst_env s.2
    match d.1 with
    | none => ((false, nsjconf), d.2)
    | some pdst =>
      let rp := mountAddRealpath w psrc flags d.2
      let dir := mountAddIsDir w rp.1 flags isDir src_content rp.2
      let p : mounts_t :=
        { src := rp.1
          dst := pdst
          fs_type := utilStrDup fstype
          options := utilStrDup options
          flags := flags
          isDir := dir.1
          mandatory := mandatory
          src_content := utilMemDup src_content src_content_len
          src_content_len := src_content_len }
      ((true, { nsjconf with mountpts := nsjconf.mountpts ++ [p] }), dir.2)

/-! ## Reading a trace -/

/-- Whether a call is a `mount`. -/
def Call.isMount : Call → Bool
  | Call.mount _ _ _ _ _ => true
  | _ => false

/-- Whether a call is a `pivot_root`. -/
def Call.isPivot : Call → Bool
  | Call.pivot_root _ _ => true
  | _ => false

/-- Whether a frame is an invocation of `mountRemountRO`. -/
def Frame.isRemountRO : Frame → Bool
  | Frame.mountRemountRO _ => true
  | _ => false

/-- Whether a frame is an invocation of `mountMount`. -/
def Frame.isMountMount : Frame → Bool
  | Frame.mountMount _ => true
  | _ => false

/-- The entry an invocation of `mountMount` starts on: each invocation opens
with one `utilCreateDirRecursively`. -/
def mountVisit (e : Event) : Option mounts_t :=
  match e.frame, e.call with
  | Frame.mountMount p, Call.utilCreateDirRecursively _ => some p
  | _, _ => none

/-- The entry an invocation of `mountRemountRO` queries: each invocation on an
entry that asks for read-only opens with one `statvfs`. -/
def remountVisit (e : Event) : Option mounts_t :=
  match e.frame, e.call with
  | Frame.mountRemountRO p, Call.statvfs _ => some p
  | _, _ => none

/-- The entry as `mountMount` leaves it when it runs past the `src_content`
block: `MS_BIND | MS_REC` is OR-ed into the flags of an entry with inline
content. -/
def withContentFlags (mpt : mounts_t) : mounts_t :=
  { mpt with flags := mpt.flags ||| (if mpt.src_content.isSome then MS_BIND ||| MS_REC else 0) }

/-- The four calls of the pivot block, with the answers they got. -/
def pivotEvents (cwd : Option String) (r1 r2 r3 r4 : Ret) : List Event :=
  [ ⟨Frame.mountInitNsInternal, Call.umount2 "/tmp/nsjail.tmp" MNT_DETACH, r1⟩,
    ⟨Frame.mountInitNsInternal, Call.pivot_root "/tmp/nsjail.root" "/tmp/nsjail.root", r2⟩,
    ⟨Frame.mountInitNsInternal, Call.umount2 "/" MNT_DETACH, r3⟩,
    ⟨Frame.mountInitNsInternal, Call.chdir cwd, r4⟩ ]

/-- An entry asks for read-only. -/
def wantsRO (p : mounts_t) : Bool :=
  decide (p.flags &&& MS_RDONLY ≠ 0)

/-- A failed `mount` issued by `mountMount` on a mandatory entry. -/
def mandatoryMountFailure (e : Event) : Prop :=
  ∃ p, e.frame = Frame.mountMount p ∧ p.mandatory = true ∧ e.call.isMount = true
    ∧ e.ret.rc = -1

/-! ## Concrete environments -/

/-- The answer of a call that succeeds: a resolvable path is a directory with
mode `0755`, a mounted filesystem reports `MS_NOSUID | MS_NODEV`, and no
environment variable is set. -/
def okRet : Call → Ret
  | Call.realpath p => ⟨0, 0, 0, some p⟩
  | Call.stat _ => ⟨0, 0, S_IFDIR ||| 493, none⟩
  | Call.statvfs _ => ⟨0, 0, MS_NOSUID ||| MS_NODEV, none⟩
  | Call.utilCreateDirRecursively _ => ⟨1, 0, 0, none⟩
  | Call.utilWriteToFd _ _ _ => ⟨1, 0, 0, none⟩
  | Call.openFile _ _ _ => ⟨3, 0, 0, none⟩
  | Call.mkostemp _ _ => ⟨3, 0, 0, some "/tmp/nsjail.tmp/file.Ab3dE9"⟩
  | _ => ⟨0, 0, 0, none⟩

/-- The answer of a call that fails (with `EACCES`). -/
def failRet : Call → Ret
  | Call.utilCreateDirRecursively _ => ⟨0, 13, 0, none⟩
  | Call.utilWriteToFd _ _ _ => ⟨0, 13, 0, none⟩
  | _ => ⟨-1, 13, 0, none⟩

/-- An environment with the variables of `env`, in which the calls picked by
`bad` fail and every other call succeeds. -/
def worldWith (env : String → Option String) (bad : Call → Bool) : World :=
  fun _ c =>
    match c with
    | Call.getenv v => ⟨0, 0, 0, env v⟩
    | _ => if bad c then failRet c else okRet c

/-- No environment variable is set. -/
def noEnv : String → Option String := fun _ => none

/-- Only `FOO=/abc` is set. -/
def fooEnv : String → Option String := fun v => if v = "FOO" then some "/abc" else none

/-- Every call succeeds. -/
def allOk : Call → Bool := fun _ => false

/-- A bind mount of `/etc`, read-only, mandatory. -/
def etcEntry : mounts_t :=
  { src := some "/etc", dst := some "/etc", fs_type := none, options := none,
    flags := MS_BIND ||| MS_REC ||| MS_RDONLY, isDir := true, mandatory := true,
    src_content := none, src_content_len := 0 }

/-- A tmpfs on `/tmp`, not mandatory. -/
def tmpEntry : mounts_t :=
  { src := none, dst := some "/tmp", fs_type := some "tmpfs", options := none,
    flags := 0, isDir := true, mandatory := false,
    src_content := none, src_content_len := 0 }

/-- A file with inline content at `/etc/passwd`, not mandatory. -/
def passwdEntry : mounts_t :=
  { src := none, dst := some "/etc/passwd", fs_type := none, options := none,
    flags := 0, isDir := false, mandatory := false,
    src_content := some [114, 111, 111, 116], src_content_len := 4 }

/-- The same file, mandatory. -/
def passwdEntryMandatory : mounts_t :=
  { passwdEntry with mandatory := true }

/-- A configuration asking for mount-namespace isolation. -/
def confOf (mountpts : List mounts_t) : nsjconf_t :=
  { clone_newns := true, chroot := none, cwd := some "/", mountpts := mountpts }

/-! ## Lemmas on the flag printer -/

theorem utilSSnPrintf_of_le (str s : List Char) (size : Nat)
    (h : str.length + s.length ≤ size - 1) : utilSSnPrintf str size s = str ++ s := by
  unfold utilSSnPrintf
  apply List.take_of_length_le
  simpa using h

theorem namesText_length_le (flags : Nat) (tbl : List (Nat × List Char)) :
    (namesText (selectedFlags flags tbl)).length ≤ tableRoom tbl := by
  induction tbl with
  | nil => simp [namesText, selectedFlags, tableRoom]
  | cons e tbl ih =>
    simp only [namesText, selectedFlags, tableRoom] at ih ⊢
    by_cases h : flags &&& e.1 ≠ 0
    · simp [List.filter_cons, h] at ih ⊢
      omega
    · simp [List.filter_cons, h] at ih ⊢
      omega

theorem appendFlagNames_eq (flags : Nat) (tbl : List (Nat × List Char)) (buf : List Char)
    (h : buf.length + tableRoom tbl ≤ 1023) :
    appendFlagNames flags tbl buf = buf ++ namesText (selectedFlags flags tbl) := by
  induction tbl generalizing buf with
  | nil => simp [appendFlagNames, namesText, selectedFlags]
  | cons e tbl ih =>
    have hroom : tableRoom (e :: tbl) = e.2.length + 1 + tableRoom tbl := by
      simp [tableRoom]
    rw [hroom] at h
    by_cases hf : flags &&& e.1 ≠ 0
    · have hstep : utilSSnPrintf buf 1024 (e.2 ++ ['|']) = buf ++ (e.2 ++ ['|']) := by
        apply utilSSnPrintf_of_le
        simp
        omega
      have := ih (buf ++ (e.2 ++ ['|'])) (by simp; omega)
      simp only [appendFlagNames, List.foldl_cons, hstep] at this ⊢
      rw [if_pos hf, this]
      simp [namesText, selectedFlags, List.filter_cons, hf]
    · have := ih buf (by omega)
      simp only [appendFlagNames, List.foldl_cons] at this ⊢
      rw [if_neg hf, this]
      simp [namesText, selectedFlags, List.filter_cons, hf]

theorem splitBar_ne_nil (s : List Char) : splitBar s ≠ [] := by
  cases s with
  | nil => simp [splitBar]
  | cons c cs =>
    unfold splitBar
    split
    · simp
    · split <;> simp

theorem splitBar_no_bar (s : List Char) (h : ∀ c ∈ s, c ≠ '|') : splitBar s = [s] := by
  induction s with
  | nil => rfl
  | cons c cs ih =>
    have hc : c ≠ '|' := h c (by simp)
    have := ih (fun d hd => h d (by simp [hd]))
    simp [splitBar, hc, this]

theorem splitBar_append_bar (s rest : List Char) (h : ∀ c ∈ s, c ≠ '|') :
    splitBar (s ++ '|' :: rest) = s :: splitBar rest := by
  induction s with
  | nil => simp [splitBar]
  | cons c cs ih =>
    have hc : c ≠ '|' := h c (by simp)
    have := ih (fun d hd => h d (by simp [hd]))
    simp [splitBar, hc, this]

theorem splitBar_namesText (sel : List (Nat × List Char)) (tail : List Char)
    (hsel : ∀ e ∈ sel, ∀ c ∈ e.2, c ≠ '|') (htail : ∀ c ∈ tail, c ≠ '|') :
    splitBar (namesText sel ++ tail) = sel.map Prod.snd ++ [tail] := by
  induction sel with
  | nil => simpa [namesText] using splitBar_no_bar tail htail
  | cons e sel ih =>
    have h1 := ih (fun e' he' => hsel e' (by simp [he']))
    have h2 : namesText (e :: sel) ++ tail = e.2 ++ '|' :: (namesText sel ++ tail) := by
      simp [namesText]
    rw [h2, splitBar_append_bar _ _ (hsel e (by simp)), h1]
    simp

theorem hexVal_hexDigit : ∀ d, d < 16 → hexVal (hexDigit d) = d := by decide

theorem hexDigit_ne_bar : ∀ d, d < 16 → hexDigit d ≠ '|' := by decide

theorem parseHexRev_hexDigitsRev (fuel n : Nat) (h : n < 16 ^ fuel) :
    parseHexRev (hexDigitsRev fuel n) = n := by
  induction fuel generalizing n with
  | zero =>
    have : n = 0 := by simpa using h
    simp [hexDigitsRev, parseHexRev, this]
  | succ k ih =>
    unfold hexDigitsRev
    by_cases hn : n = 0
    · simp [hn, parseHexRev]
    · have hdiv : n / 16 < 16 ^ k := by
        rw [Nat.div_lt_iff_lt_mul (by norm_num)]
        rw [pow_succ] at h
        exact h
      simp only [hn, if_false, parseHexRev, ih _ hdiv,
        hexVal_hexDigit _ (Nat.mod_lt n (by norm_num))]
      omega

theorem hexDigitsRev_no_bar (fuel n : Nat) : ∀ c ∈ hexDigitsRev fuel n, c ≠ '|' := by
  induction fuel generalizing n with
  | zero => simp [hexDigitsRev]
  | succ k ih =>
    unfold hexDigitsRev
    by_cases hn : n = 0
    · simp [hn]
    · intro c hc
      simp only [hn, if_false, List.mem_cons] at hc
      rcases hc with rfl | hc
      · exact hexDigit_ne_bar _ (Nat.mod_lt n (by norm_num))
      · exact ih _ c hc

theorem hexDigitsRev_length (fuel n : Nat) : (hexDigitsRev fuel n).length ≤ fuel := by
  induction fuel generalizing n with
  | zero => simp [hexDigitsRev]
  | succ k ih =>
    unfold hexDigitsRev
    by_cases hn : n = 0
    · simp [hn]
    · simpa [hn] using ih (n / 16)

theorem fmtHex_length (n : Nat) : (fmtHex n).length ≤ 18 := by
  unfold fmtHex
  by_cases hn : n = 0
  · simp [hn]
  · have := hexDigitsRev_length 16 n
    simp [hn]
    omega

theorem fmtHex_no_bar (n : Nat) : ∀ c ∈ fmtHex n, c ≠ '|' := by
  unfold fmtHex
  by_cases hn : n = 0
  · simp [hn]
  · intro c hc
    simp only [hn, if_false, List.mem_cons, List.mem_reverse] at hc
    rcases hc with rfl | rfl | hc
    · decide
    · decide
    · exact hexDigitsRev_no_bar _ _ c hc

theorem parseHex_fmtHex (n : Nat) (h : n < 2 ^ 64) : parseHex (fmtHex n) = n := by
  unfold fmtHex
  by_cases hn : n = 0
  · simp [hn, parseHex]
  · simp only [hn, if_false, parseHex, List.reverse_reverse]
    exact parseHexRev_hexDigitsRev 16 n (by norm_num; omega)

theorem fmtHex_head (n : Nat) : ∃ t, fmtHex n = '0' :: t := by
  unfold fmtHex
  by_cases hn : n = 0
  · exact ⟨[], by simp [hn]⟩
  · exact ⟨'x' :: (hexDigitsRev 16 n).reverse, by simp [hn]⟩

theorem mountFlags_lookup : ∀ e ∈ mountFlags, lookupFlagName e.2 = some e.1 := by decide

theorem mountFlags_no_bar : ∀ e ∈ mountFlags, ∀ c ∈ e.2, c ≠ '|' := by decide

theorem mountFlags_head : ∀ e ∈ mountFlags, e.2.head? = some 'M' := by decide

theorem mountFlags_single_bit : ∀ e ∈ mountFlags, ∃ k, e.1 = 2 ^ k := by
  intro e he
  simp only [mountFlags, List.mem_cons, List.mem_singleton, List.not_mem_nil, or_false] at he
  rcases he with h | h | h | h | h | h | h | h | h | h | h | h | h | h | h | h | h | h | h | h
    | h | h | h | h <;> subst h
  exacts [⟨0, rfl⟩, ⟨1, rfl⟩, ⟨2, rfl⟩, ⟨3, rfl⟩, ⟨4, rfl⟩, ⟨5, rfl⟩, ⟨6, rfl⟩, ⟨7, rfl⟩,
    ⟨10, rfl⟩, ⟨11, rfl⟩, ⟨12, rfl⟩, ⟨13, rfl⟩, ⟨14, rfl⟩, ⟨15, rfl⟩, ⟨16, rfl⟩, ⟨17, rfl⟩,
    ⟨18, rfl⟩, ⟨19, rfl⟩, ⟨20, rfl⟩, ⟨21, rfl⟩, ⟨22, rfl⟩, ⟨23, rfl⟩, ⟨24, rfl⟩, ⟨25, rfl⟩]

theorem and_single_bit (x k : Nat) (h : x &&& 2 ^ k ≠ 0) : x &&& 2 ^ k = 2 ^ k := by
  rw [Nat.and_two_pow] at h ⊢
  cases hb : x.testBit k <;> simp [hb] at h ⊢

theorem lookupFlagName_fmtHex (n : Nat) : lookupFlagName (fmtHex n) = none := by
  obtain ⟨t, ht⟩ := fmtHex_head n
  unfold lookupFlagName
  rw [Option.map_eq_none', List.find?_eq_none]
  intro e he
  have := mountFlags_head e he
  simp only [decide_eq_true_eq]
  intro heq
  rw [heq, ht] at this
  simp at this

theorem knownFlagMaskOf_foldl (tbl : List (Nat × List Char)) (m : Nat) :
    tbl.foldl (fun m e => m ||| e.1) m = m ||| knownFlagMaskOf tbl := by
  induction tbl generalizing m with
  | nil => simp [knownFlagMaskOf]
  | cons e tbl ih =>
    simp only [knownFlagMaskOf, List.foldl_cons]
    rw [ih (m ||| e.1), ih (0 ||| e.1)]
    simp [Nat.or_assoc]

theorem knownFlagMaskOf_cons (e : Nat × List Char) (tbl : List (Nat × List Char)) :
    knownFlagMaskOf (e :: tbl) = e.1 ||| knownFlagMaskOf tbl := by
  have := knownFlagMaskOf_foldl tbl (0 ||| e.1)
  simpa [knownFlagMaskOf] using this

theorem selectedFlags_cons_pos (x : Nat) (e : Nat × List Char) (tbl : List (Nat × List Char))
    (h : x &&& e.1 ≠ 0) : selectedFlags x (e :: tbl) = e :: selectedFlags x tbl := by
  simp [selectedFlags, List.filter_cons, h]

theorem selectedFlags_cons_neg (x : Nat) (e : Nat × List Char) (tbl : List (Nat × List Char))
    (h : ¬ x &&& e.1 ≠ 0) : selectedFlags x (e :: tbl) = selectedFlags x tbl := by
  simp only [selectedFlags, List.filter_cons]
  rw [if_neg (by simpa using h)]

theorem orFlagNames_selected (x : Nat) (tbl : List (Nat × List Char))
    (h : ∀ e ∈ tbl, e ∈ mountFlags) (acc : Nat) :
    ((selectedFlags x tbl).map Prod.snd).foldl (fun acc s => match lookupFlagName s with
      | some f => acc ||| f
      | none => acc) acc = acc ||| (x &&& knownFlagMaskOf tbl) := by
  induction tbl generalizing acc with
  | nil => simp [selectedFlags, knownFlagMaskOf]
  | cons e tbl ih =>
    have hmem : e ∈ mountFlags := h e (by simp)
    have ih2 := fun a => ih (fun e' he' => h e' (by simp [he'])) a
    rw [knownFlagMaskOf_cons, Nat.and_or_distrib_left]
    by_cases hf : x &&& e.1 ≠ 0
    · obtain ⟨k, hk⟩ := mountFlags_single_bit e hmem
      have hbit : x &&& e.1 = e.1 := by rw [hk] at hf ⊢; exact and_single_bit x k hf
      rw [selectedFlags_cons_pos x e tbl hf]
      simp only [List.map_cons, List.foldl_cons, mountFlags_lookup e hmem]
      rw [ih2, hbit, Nat.or_assoc]
    · have hz : x &&& e.1 = 0 := by simpa using hf
      rw [selectedFlags_cons_neg x e tbl hf, ih2, hz]
      simp

theorem and_or_notW (x m : Nat) (hx : x < 2 ^ 64) : (x &&& m) ||| (x &&& notW m) = x := by
  apply Nat.eq_of_testBit_eq
  intro i
  simp only [Nat.testBit_or, Nat.testBit_and, notW, wordMax, wordBits, Nat.testBit_xor,
    Nat.testBit_two_pow_sub_one, Nat.testBit_mod_two_pow]
  by_cases hi : i < 64
  · cases x.testBit i <;> cases m.testBit i <;> simp [hi]
  · have : x.testBit i = false := by
      apply Nat.testBit_lt_two_pow
      calc x < 2 ^ 64 := hx
        _ ≤ 2 ^ i := Nat.pow_le_pow_right (by norm_num) (by omega)
    simp [this]

theorem and_notW_lt (x m : Nat) (hx : x < 2 ^ 64) : x &&& notW m < 2 ^ 64 :=
  lt_of_le_of_lt Nat.and_le_left hx

theorem tableRoom_mountFlags : tableRoom mountFlags = 267 := by decide

theorem knownFlagMask_eq : knownFlagMask = 67108095 := by decide

/-- C1: for every 64-bit flag word `x`, `mountFlagsToStr x` is the untruncated
text of the names of the set known flags, in table order and each followed by
`|`, and then the `%#tx` rendering of `x` with the known bits cleared; it fits
the 1024-byte buffer with its terminator; splitting it at `|` gives back those
names and that literal; OR-ing the values of the recognised names gives
`x & knownFlagMask`, the literal reads back as `x & ~knownFlagMask`, and the
two together are `x`. -/
theorem mountFlagsToStr_roundtrip (x : Nat) (hx : x < 2 ^ 64) :
    mountFlagsToStr x
        = namesText (selectedFlags x mountFlags) ++ fmtHex (x &&& notW knownFlagMask)
    ∧ (mountFlagsToStr x).length + 1 ≤ 1024
    ∧ splitBar (mountFlagsToStr x)
        = (selectedFlags x mountFlags).map Prod.snd ++ [fmtHex (x &&& notW knownFlagMask)]
    ∧ ((selectedFlags x mountFlags).map Prod.snd).Sublist (mountFlags.map Prod.snd)
    ∧ orFlagNames (splitBar (mountFlagsToStr x)) = x &&& knownFlagMask
    ∧ (splitBar (mountFlagsToStr x)).getLast? = some (fmtHex (x &&& notW knownFlagMask))
    ∧ parseHex (fmtHex (x &&& notW knownFlagMask)) = x &&& notW knownFlagMask
    ∧ orFlagNames (splitBar (mountFlagsToStr x))
        ||| parseHex (fmtHex (x &&& notW knownFlagMask)) = x := by
  have hnames : appendFlagNames x mountFlags []
      = namesText (selectedFlags x mountFlags) := by
    have := appendFlagNames_eq x mountFlags [] (by rw [tableRoom_mountFlags]; simp)
    simpa using this
  have hlen1 := namesText_length_le x mountFlags
  rw [tableRoom_mountFlags] at hlen1
  have hlen2 := fmtHex_length (x &&& notW knownFlagMask)
  have hout : mountFlagsToStr x
      = namesText (selectedFlags x mountFlags) ++ fmtHex (x &&& notW knownFlagMask) := by
    simp only [mountFlagsToStr, hnames]
    exact utilSSnPrintf_of_le _ _ _ (by omega)
  have hsplit : splitBar (mountFlagsToStr x)
      = (selectedFlags x mountFlags).map Prod.snd ++ [fmtHex (x &&& notW knownFlagMask)] := by
    rw [hout]
    apply splitBar_namesText
    · intro e he
      exact mountFlags_no_bar e (List.mem_of_mem_filter he)
    · exact fmtHex_no_bar _
  have hor : orFlagNames (splitBar (mountFlagsToStr x)) = x &&& knownFlagMask := by
    rw [hsplit]
    unfold orFlagNames
    rw [List.foldl_append, orFlagNames_selected x mountFlags (fun e he => he) 0]
    simp [lookupFlagName_fmtHex, knownFlagMask]
  have hparse := parseHex_fmtHex (x &&& notW knownFlagMask) (and_notW_lt x _ hx)
  refine ⟨hout, ?_, hsplit, ?_, hor, ?_, hparse, ?_⟩
  · rw [hout, List.length_append]
    omega
  · exact List.Sublist.map _ (List.filter_sublist _)
  · rw [hsplit]
    simp
  · rw [hor, hparse]
    exact and_or_notW x knownFlagMask hx

/-- C1 at `MS_RDONLY | MS_BIND | 0x40000000`. -/
theorem mountFlagsToStr_roundtrip_witness :
    (1073745921 : Nat) < 2 ^ 64
    ∧ mountFlagsToStr 1073745921 = "MS_RDONLY|MS_BIND|0x40000000".toList
    ∧ orFlagNames (splitBar (mountFlagsToStr 1073745921)) = 4097
    ∧ orFlagNames (splitBar (mountFlagsToStr 1073745921))
        ||| parseHex (fmtHex (1073745921 &&& notW knownFlagMask)) = 1073745921 := by
  have h := mountFlagsToStr_roundtrip 1073745921 (by norm_num)
  refine ⟨by norm_num, by decide, ?_, h.2.2.2.2.2.2.2⟩
  rw [h.2.2.2.2.1]
  decide

/-! ## Lemmas on the executor -/

theorem notW_rdonly_testBit (x i : Nat) :
    (x &&& notW MS_RDONLY).testBit i = (x.testBit i && decide (i < 64) && decide (i ≠ 0)) := by
  have h1 : notW MS_RDONLY = 2 * (2 ^ 63 - 1) := by decide
  rw [Nat.testBit_and, h1]
  cases i with
  | zero => simp [Nat.testBit_zero]
  | succ j =>
    have h2 : (2 * (2 ^ 63 - 1)).testBit (j + 1) = (2 ^ 63 - 1).testBit j := by
      rw [Nat.testBit_succ, Nat.mul_div_cancel_left _ (by norm_num : 0 < 2)]
    rw [h2, Nat.testBit_two_pow_sub_one]
    have h3 : decide (j < 63) = decide (j + 1 < 64) := by
      apply decide_eq_decide.mpr
      omega
    simp [h3]

theorem mountMountNode_trace (w : World) (mpt : mounts_t) (dst : String) (t : List Event) :
    ∃ new, (mountMountNode w mpt dst t).2 = t ++ new
      ∧ (∀ e ∈ new, e.frame = Frame.mountMount mpt ∧ e.call.isMount = false
          ∧ e.call.isPivot = false)
      ∧ new.filterMap mountVisit = [mpt] := by
  simp only [mountMountNode, sys]
  split_ifs <;> simp [Call.isMount, Call.isPivot, mountVisit]

theorem mountMountContent_trace (w : World) (mpt : mounts_t) (srcpath tmpdir : String)
    (t : List Event) :
    ∃ new, (mountMountContent w mpt srcpath tmpdir t).2 = t ++ new
      ∧ (∀ e ∈ new, e.frame = Frame.mountMount mpt ∧ e.call.isMount = false
          ∧ e.call.isPivot = false)
      ∧ new.filterMap mountVisit = [] := by
  simp only [mountMountContent, sys]
  split
  · split_ifs <;> simp [Call.isMount, Call.isPivot, mountVisit]
  · exact ⟨[], by simp⟩

theorem mountMountContent_flags (w : World) (mpt : mounts_t) (srcpath tmpdir : String)
    (t : List Event) (sp : String) (m : mounts_t)
    (h : (mountMountContent w mpt srcpath tmpdir t).1 = some (sp, m)) :
    m = withContentFlags mpt := by
  simp only [mountMountContent, sys, withContentFlags] at h ⊢
  split at h
  · rename_i buf hbuf
    split_ifs at h
    simp only [Option.some.injEq, Prod.mk.injEq] at h
    rw [← h.2]
    simp [hbuf]
  · rename_i hbuf
    simp only [Option.some.injEq, Prod.mk.injEq] at h
    obtain ⟨_, rfl⟩ := h
    cases mpt
    simp_all

theorem mountMount_spec (w : World) (mpt : mounts_t) (newroot tmpdir : String)
    (t : List Event) :
    ∃ new, (mountMount w mpt newroot tmpdir t).2 = t ++ new
      ∧ (∀ e ∈ new, e.frame = Frame.mountMount mpt ∧ e.call.isPivot = false)
      ∧ (∀ e ∈ new, ∀ s d f fl o, e.call = Call.mount s d f fl o →
          fl = (withContentFlags mpt).flags &&& notW MS_RDONLY)
      ∧ new.filterMap mountVisit = [mpt]
      ∧ (∀ e ∈ new, e.call.isMount = true → e.ret.rc = -1 → mpt.mandatory = true →
          (mountMount w mpt newroot tmpdir t).1.1 = false)
      ∧ ((mountMount w mpt newroot tmpdir t).1.1 = true →
          (mountMount w mpt newroot tmpdir t).1.2 = withContentFlags mpt) := by
  obtain ⟨n1, h1, h1a, h1b⟩ := mountMountNode_trace w mpt (mountMountDst mpt newroot) t
  simp only [mountMount]
  generalize mountMountNode w mpt (mountMountDst mpt newroot) t = node at h1 ⊢
  obtain ⟨ok, t1⟩ := node
  simp only at h1
  subst h1
  cases ok
  · refine ⟨n1, by simp, fun e he => ⟨(h1a e he).1, (h1a e he).2.2⟩, ?_, h1b, ?_, by simp⟩
    · intro e he s d f fl o hcall
      have := (h1a e he).2.1
      simp [hcall, Call.isMount] at this
    · intro e he hm
      have := (h1a e he).2.1
      simp [hm] at this
  · obtain ⟨n2, h2, h2a, h2b⟩ :=
      mountMountContent_trace w mpt (mountMountSrcpath mpt) tmpdir (t ++ n1)
    have hfl := mountMountContent_flags w mpt (mountMountSrcpath mpt) tmpdir (t ++ n1)
    generalize mountMountContent w mpt (mountMountSrcpath mpt) tmpdir (t ++ n1) = content
      at h2 hfl ⊢
    obtain ⟨res, t2⟩ := content
    simp only at h2
    subst h2
    have hno : ∀ e ∈ n1 ++ n2, e.frame = Frame.mountMount mpt ∧ e.call.isMount = false
        ∧ e.call.isPivot = false := by
      intro e he
      rcases List.mem_append.mp he with h | h
      · exact h1a e h
      · exact h2a e h
    have hfr : ∀ (l : List Event), (∀ e ∈ l, e.frame = Frame.mountMount mpt
        ∧ e.call.isPivot = false) → ∀ e ∈ n1 ++ n2 ++ l, e.frame = Frame.mountMount mpt
        ∧ e.call.isPivot = false := by
      intro l hl e he
      rcases List.mem_append.mp he with h | h
      · exact ⟨(hno e h).1, (hno e h).2.2⟩
      · exact hl e h
    have hflags : ∀ (l : List Event) (fl0 : Nat), (∀ e ∈ l, ∀ s d f fl o,
        e.call = Call.mount s d f fl o → fl = fl0) → ∀ e ∈ n1 ++ n2 ++ l, ∀ s d f fl o,
        e.call = Call.mount s d f fl o → fl = fl0 := by
      intro l fl0 hl e he s d f fl o hcall
      rcases List.mem_append.mp he with h | h
      · have := (hno e h).2.1
        simp [hcall, Call.isMount] at this
      · exact hl e h s d f fl o hcall
    have hvis : ∀ (l : List Event), l.filterMap mountVisit = [] →
        (n1 ++ n2 ++ l).filterMap mountVisit = [mpt] := by
      intro l hl
      simp [h1b, h2b, hl]
    cases res with
    | none =>
      refine ⟨n1 ++ n2, by simp, fun e he => ⟨(hno e he).1, (hno e he).2.2⟩, ?_,
        by simp [h1b, h2b], ?_, by simp⟩
      · intro e he s d f fl o hcall
        have := (hno e he).2.1
        simp [hcall, Call.isMount] at this
      · intro e he hm
        have := (hno e he).2.1
        simp [hm] at this
    | some pr =>
      obtain ⟨sp, m⟩ := pr
      have hm := hfl sp m rfl
      subst hm
      simp only [sys, Bool.true_eq_false, if_false]
      split_ifs with hA hB
      · refine ⟨n1 ++ n2 ++ [_], by simp only [List.append_assoc]; rfl, ?_, ?_, ?_, ?_,
          by simp⟩
        · exact hfr _ (by simp [Call.isPivot])
        · exact hflags _ _ (by simp; intros; subst_vars; rfl)
        · exact hvis _ (by simp [mountVisit])
        · intros; rfl
      · refine ⟨n1 ++ n2 ++ [_, _], by simp only [List.append_assoc]; rfl, ?_, ?_, ?_, ?_,
          by simp⟩
        · exact hfr _ (by simp [Call.isPivot])
        · exact hflags _ _ (by simp; intros; subst_vars; rfl)
        · exact hvis _ (by simp [mountVisit])
        · intro e he hmnt hrc hmand
          rcases List.mem_append.mp he with h | h
          · have := (hno e h).2.1
            simp [hmnt] at this
          · simp at h
            rcases h with h | h <;> subst h
            · exact absurd ⟨by simpa [List.append_assoc] using hrc,
                by simpa [withContentFlags] using hmand⟩ hA
            · simp [Call.isMount] at hmnt
      · refine ⟨n1 ++ n2 ++ [_], by simp only [List.append_assoc]; rfl, ?_, ?_, ?_, ?_,
          by simp⟩
        · exact hfr _ (by simp [Call.isPivot])
        · exact hflags _ _ (by simp; intros; subst_vars; rfl)
        · exact hvis _ (by simp [mountVisit])
        · intro e he hmnt hrc hmand
          rcases List.mem_append.mp he with h | h
          · have := (hno e h).2.1
            simp [hmnt] at this
          · simp at h
            subst h
            exact absurd ⟨by simpa [List.append_assoc] using hrc,
              by simpa [withContentFlags] using hmand⟩ hA

theorem filter_isMount_nil (l : List Event) (h : ∀ e ∈ l, e.call.isMount = false) :
    l.filter (fun e => e.call.isMount) = [] := by
  rw [List.filter_eq_nil_iff]
  intro e he
  simp [h e he]

theorem mountMountNode_ok (w : World) (mpt : mounts_t) (dst : String) (t : List Event)
    (h : (w t (Call.utilCreateDirRecursively dst)).rc ≠ 0) :
    (mountMountNode w mpt dst t).1 = true := by
  simp only [mountMountNode, sys]
  split_ifs <;> simp_all

theorem mountMountContent_none (w : World) (mpt : mounts_t) (srcpath tmpdir : String)
    (t : List Event) (h : mpt.src_content = none) :
    mountMountContent w mpt srcpath tmpdir t = (some (srcpath, mpt), t) := by
  simp [mountMountContent, h]

theorem mountMount_mounts (w : World) (mpt : mounts_t) (newroot tmpdir : String)
    (t : List Event) :
    ∃ new, (mountMount w mpt newroot tmpdir t).2 = t ++ new
      ∧ (((mountMountNode w mpt (mountMountDst mpt newroot) t).1 = false
          ∨ (mountMountContent w mpt (mountMountSrcpath mpt) tmpdir
              (mountMountNode w mpt (mountMountDst mpt newroot) t).2).1 = none) →
          new.filter (fun e => e.call.isMount) = []
          ∧ (mountMount w mpt newroot tmpdir t).1.1 = false)
      ∧ ((mountMountNode w mpt (mountMountDst mpt newroot) t).1 = true →
          ∀ sp m, (mountMountContent w mpt (mountMountSrcpath mpt) tmpdir
              (mountMountNode w mpt (mountMountDst mpt newroot) t).2).1 = some (sp, m) →
          ∃ r, new.filter (fun e => e.call.isMount)
            = [⟨Frame.mountMount mpt,
                Call.mount (some sp) (some (mountMountDst mpt newroot)) mpt.fs_type
                  ((withContentFlags mpt).flags &&& notW MS_RDONLY) mpt.options, r⟩]) := by
  obtain ⟨n1, h1, h1a, -⟩ := mountMountNode_trace w mpt (mountMountDst mpt newroot) t
  simp only [mountMount]
  generalize mountMountNode w mpt (mountMountDst mpt newroot) t = node at h1 ⊢
  obtain ⟨ok, t1⟩ := node
  simp only at h1
  subst h1
  have hf1 := filter_isMount_nil n1 (fun e he => (h1a e he).2.1)
  cases ok
  · refine ⟨n1, by simp, ?_, ?_⟩
    · intro _
      exact ⟨hf1, by simp⟩
    · intro h
      simp at h
  · obtain ⟨n2, h2, h2a, -⟩ :=
      mountMountContent_trace w mpt (mountMountSrcpath mpt) tmpdir (t ++ n1)
    have hfl := mountMountContent_flags w mpt (mountMountSrcpath mpt) tmpdir (t ++ n1)
    generalize mountMountContent w mpt (mountMountSrcpath mpt) tmpdir (t ++ n1) = content
      at h2 hfl ⊢
    obtain ⟨res, t2⟩ := content
    simp only at h2
    subst h2
    have hf2 := filter_isMount_nil n2 (fun e he => (h2a e he).2.1)
    cases res with
    | none =>
      refine ⟨n1 ++ n2, by simp, ?_, ?_⟩
      · intro _
        exact ⟨by simp [List.filter_append, hf1, hf2], by simp⟩
      · intro _ sp m h
        simp at h
    | some pr =>
      obtain ⟨sp, m⟩ := pr
      have hm := hfl sp m rfl
      subst hm
      simp only [sys, Bool.true_eq_false, if_false]
      split_ifs with hA hB
      · refine ⟨n1 ++ n2 ++ [_], by simp only [List.append_assoc]; rfl, ?_, ?_⟩
        · intro h
          simp at h
        · intro _ sp' m' h
          simp only [Option.some.injEq, Prod.mk.injEq] at h
          obtain ⟨rfl, -⟩ := h
          exact ⟨_, by rw [List.filter_append, List.filter_append, hf1, hf2]; rfl⟩
      · refine ⟨n1 ++ n2 ++ [_, _], by simp only [List.append_assoc]; rfl, ?_, ?_⟩
        · intro h
          simp at h
        · intro _ sp' m' h
          simp only [Option.some.injEq, Prod.mk.injEq] at h
          obtain ⟨rfl, -⟩ := h
          exact ⟨_, by rw [List.filter_append, List.filter_append, hf1, hf2]; rfl⟩
      · refine ⟨n1 ++ n2 ++ [_], by simp only [List.append_assoc]; rfl, ?_, ?_⟩
        · intro h
          simp at h
        · intro _ sp' m' h
          simp only [Option.some.injEq, Prod.mk.injEq] at h
          obtain ⟨rfl, -⟩ := h
          exact ⟨_, by rw [List.filter_append, List.filter_append, hf1, hf2]; rfl⟩

theorem mountRemountRO_trace (w : World) (mpt : mounts_t) (t : List Event) :
    ∃ new, (mountRemountRO w mpt t).2 = t ++ new
      ∧ (∀ e ∈ new, e.frame = Frame.mountRemountRO mpt)
      ∧ new.filterMap remountVisit = (if mpt.flags &&& MS_RDONLY ≠ 0 then [mpt] else [])
      ∧ new.filterMap mountVisit = [] := by
  simp only [mountRemountRO, sys]
  split_ifs <;> simp_all [remountVisit, mountVisit]

theorem mountPass_spec (w : World) (destdir tmpdir : String) (ps : List mounts_t)
    (t : List Event) :
    ∃ new, (mountPass w destdir tmpdir ps t).2 = t ++ new
      ∧ (∀ e ∈ new, e.frame.isMountMount = true ∧ e.call.isPivot = false)
      ∧ (new.filterMap mountVisit) <+: ps
      ∧ ((mountPass w destdir tmpdir ps t).1.1 = true →
          new.filterMap mountVisit = ps
          ∧ (mountPass w destdir tmpdir ps t).1.2 = ps.map withContentFlags)
      ∧ (∀ e ∈ new, ∀ p, e.frame = Frame.mountMount p → p.mandatory = true →
          e.call.isMount = true → e.ret.rc = -1 →
          (mountPass w destdir tmpdir ps t).1.1 = false)
      ∧ new.filterMap remountVisit = [] := by
  induction ps generalizing t with
  | nil => exact ⟨[], by simp [mountPass]⟩
  | cons p ps ih =>
    obtain ⟨n1, h1, hfr, -, hvis, hmand, hres⟩ := mountMount_spec w p destdir tmpdir t
    simp only [mountPass]
    generalize mountMount w p destdir tmpdir t = r at h1 hmand hres ⊢
    obtain ⟨⟨ok, p'⟩, t1⟩ := r
    simp only at h1 hmand hres
    subst h1
    have hfr1 : ∀ e ∈ n1, e.frame.isMountMount = true ∧ e.call.isPivot = false := by
      intro e he
      have := hfr e he
      simp [this.1, this.2, Frame.isMountMount]
    have hro1 : n1.filterMap remountVisit = [] := by
      rw [List.filterMap_eq_nil_iff]
      intro e he
      simp [remountVisit, (hfr e he).1]
    cases ok
    · refine ⟨n1, by simp, hfr1, ?_, by simp, by simp, hro1⟩
      rw [hvis]
      exact ⟨ps, rfl⟩
    · obtain ⟨n2, h2, h2fr, h2pre, h2ok, h2mand, h2ro⟩ := ih (t ++ n1)
      have hp' := hres rfl
      subst hp'
      simp only [Bool.true_eq_false, if_false]
      refine ⟨n1 ++ n2, by rw [h2, List.append_assoc], ?_, ?_, ?_, ?_, ?_⟩
      · intro e he
        rcases List.mem_append.mp he with h | h
        · exact hfr1 e h
        · exact h2fr e h
      · rw [List.filterMap_append, hvis]
        exact List.prefix_cons_inj p |>.mpr h2pre
      · intro hok
        obtain ⟨ha, hb⟩ := h2ok hok
        simp [List.filterMap_append, hvis, ha, hb]
      · intro e he q hq hqm hmnt hrc
        rcases List.mem_append.mp he with h | h
        · have hpq : p = q := by
            have := (hfr e h).1
            rw [hq] at this
            injection this with this
            exact this.symm
          subst hpq
          have := hmand e h hmnt hrc hqm
          simp at this
        · exact h2mand e h q hq hqm hmnt hrc
      · simp [List.filterMap_append, hro1, h2ro]

theorem remountPass_spec (w : World) (ps : List mounts_t) (t : List Event) :
    ∃ new, (remountPass w ps t).2 = t ++ new
      ∧ (∀ e ∈ new, e.frame.isRemountRO = true)
      ∧ (new.filterMap remountVisit) <+: ps.filter wantsRO
      ∧ ((remountPass w ps t).1 = true →
          new.filterMap remountVisit = ps.filter wantsRO)
      ∧ new.filterMap mountVisit = [] := by
  induction ps generalizing t with
  | nil => exact ⟨[], by simp [remountPass]⟩
  | cons p ps ih =>
    obtain ⟨n1, h1, hfr, hvis, hmv⟩ := mountRemountRO_trace w p t
    simp only [remountPass]
    generalize mountRemountRO w p t = r at h1 ⊢
    obtain ⟨ok, t1⟩ := r
    simp only at h1
    subst h1
    have hfr1 : ∀ e ∈ n1, e.frame.isRemountRO = true := by
      intro e he
      simp [hfr e he, Frame.isRemountRO]
    have hcons : List.filter wantsRO (p :: ps)
        = (if p.flags &&& MS_RDONLY ≠ 0 then [p] else []) ++ List.filter wantsRO ps := by
      by_cases hp : p.flags &&& MS_RDONLY ≠ 0
      · simp [List.filter_cons, wantsRO, hp]
      · simp only [List.filter_cons, wantsRO]
        rw [if_neg (by simpa using hp), if_neg hp]
        simp
    cases ok
    · refine ⟨n1, by simp, hfr1, ?_, by simp, hmv⟩
      rw [hvis, hcons]
      exact List.prefix_append _ _
    · obtain ⟨n2, h2, h2fr, h2pre, h2ok, h2mv⟩ := ih (t ++ n1)
      simp only [Bool.true_eq_false, if_false]
      refine ⟨n1 ++ n2, by rw [h2, List.append_assoc], ?_, ?_, ?_, ?_⟩
      · intro e he
        rcases List.mem_append.mp he with h | h
        · exact hfr1 e h
        · exact h2fr e h
      · rw [List.filterMap_append, hvis, hcons]
        exact (List.prefix_append_right_inj _).mpr h2pre
      · intro hok
        rw [List.filterMap_append, hvis, hcons, h2ok hok]
      · simp [List.filterMap_append, hmv, h2mv]

theorem mountInitNsStaging_trace (w : World) (destdir tmpdir : String) (t : List Event) :
    ∃ new, (mountInitNsStaging w destdir tmpdir t).2 = t ++ new
      ∧ (∀ e ∈ new, e.frame = Frame.mountInitNsInternal ∧ e.call.isPivot = false)
      ∧ new.filterMap mountVisit = [] ∧ new.filterMap remountVisit = [] := by
  simp only [mountInitNsStaging, sys]
  split_ifs <;> simp [Call.isPivot, mountVisit, remountVisit]

theorem mountInitNsPivot_trace (w : World) (cwd : Option String) (t : List Event) :
    ∃ new, (mountInitNsPivot w cwd "/tmp/nsjail.root" "/tmp/nsjail.tmp" t).2 = t ++ new
      ∧ (∀ e ∈ new, e.frame = Frame.mountInitNsInternal)
      ∧ ((mountInitNsPivot w cwd "/tmp/nsjail.root" "/tmp/nsjail.tmp" t).1 = true →
          ∃ r1 r2 r3 r4, new = pivotEvents cwd r1 r2 r3 r4
            ∧ r1.rc ≠ -1 ∧ r2.rc ≠ -1 ∧ r3.rc ≠ -1 ∧ r4.rc ≠ -1)
      ∧ new.filterMap mountVisit = [] ∧ new.filterMap remountVisit = [] := by
  simp only [mountInitNsPivot, sys]
  split_ifs with h1 h2 h3 h4
  · exact ⟨[_], rfl, by simp, by simp, by simp [mountVisit], by simp [remountVisit]⟩
  · exact ⟨[_, _], by simp only [List.append_assoc]; rfl, by simp, by simp,
      by simp [mountVisit], by simp [remountVisit]⟩
  · exact ⟨[_, _, _], by simp only [List.append_assoc]; rfl, by simp, by simp,
      by simp [mountVisit], by simp [remountVisit]⟩
  · exact ⟨[_, _, _, _], by simp only [List.append_assoc]; rfl, by simp, by simp,
      by simp [mountVisit], by simp [remountVisit]⟩
  · refine ⟨[_, _, _, _], by simp only [List.append_assoc]; rfl, by simp, ?_,
      by simp [mountVisit], by simp [remountVisit]⟩
    intro _
    refine ⟨_, _, _, _, rfl, ?_, ?_, ?_, ?_⟩
    · exact h1
    · simpa [List.append_assoc] using h2
    · simpa [List.append_assoc] using h3
    · simpa [List.append_assoc] using h4

theorem mountInitNsInternal_shape (w : World) (nsjconf : nsjconf_t) (t : List Event)
    (h : nsjconf.clone_newns = true) :
    ∃ stag mp piv ro,
      (mountInitNsInternal w nsjconf t).2 = t ++ (stag ++ mp ++ piv ++ ro)
      ∧ (∀ e ∈ stag, e.frame = Frame.mountInitNsInternal ∧ e.call.isPivot = false)
      ∧ (∀ e ∈ mp, e.frame.isMountMount = true ∧ e.call.isPivot = false)
      ∧ (∀ e ∈ piv, e.frame = Frame.mountInitNsInternal)
      ∧ (∀ e ∈ ro, e.frame.isRemountRO = true)
      ∧ ((∃ e ∈ mp, mandatoryMountFailure e) →
          piv = [] ∧ ro = [] ∧ (mountInitNsInternal w nsjconf t).1.1 = false)
      ∧ (ro ≠ [] → ∃ r1 r2 r3 r4, piv = pivotEvents nsjconf.cwd r1 r2 r3 r4
          ∧ r1.rc ≠ -1 ∧ r2.rc ≠ -1 ∧ r3.rc ≠ -1 ∧ r4.rc ≠ -1)
      ∧ ((stag ++ mp ++ piv ++ ro).filterMap mountVisit) <+: nsjconf.mountpts
      ∧ ((stag ++ mp ++ piv ++ ro).filterMap remountVisit)
          <+: (nsjconf.mountpts.map withContentFlags).filter wantsRO
      ∧ ((mountInitNsInternal w nsjconf t).1.1 = true →
          (stag ++ mp ++ piv ++ ro).filterMap mountVisit = nsjconf.mountpts
          ∧ (mountInitNsInternal w nsjconf t).1.2.mountpts
              = nsjconf.mountpts.map withContentFlags
          ∧ (stag ++ mp ++ piv ++ ro).filterMap remountVisit
              = (nsjconf.mountpts.map withContentFlags).filter wantsRO) := by
  obtain ⟨s1, hs1, hs1fr, hs1mv, hs1rv⟩ :=
    mountInitNsStaging_trace w "/tmp/nsjail.root" "/tmp/nsjail.tmp" t
  simp only [mountInitNsInternal, h, Bool.true_eq_false, if_false]
  generalize mountInitNsStaging w "/tmp/nsjail.root" "/tmp/nsjail.tmp" t = st at hs1 ⊢
  obtain ⟨ok1, t1⟩ := st
  simp only at hs1
  subst hs1
  cases ok1
  · refine ⟨s1, [], [], [], by simp, hs1fr, by simp, by simp, by simp, by simp, by simp,
      ?_, ?_, by simp⟩
    · simp only [List.append_nil, hs1mv]
      exact List.nil_prefix
    · simp only [List.append_nil, hs1rv]
      exact List.nil_prefix
  · obtain ⟨mp, hmp, hmpfr, hmppre, hmpok, hmpmand, hmprv⟩ :=
      mountPass_spec w "/tmp/nsjail.root" "/tmp/nsjail.tmp" nsjconf.mountpts (t ++ s1)
    generalize mountPass w "/tmp/nsjail.root" "/tmp/nsjail.tmp" nsjconf.mountpts (t ++ s1)
      = pass at hmp hmpok hmpmand ⊢
    obtain ⟨⟨ok2, ps'⟩, t2⟩ := pass
    simp only at hmp hmpok hmpmand
    subst hmp
    have hmand : (∃ e ∈ mp, mandatoryMountFailure e) → ok2 = false := by
      rintro ⟨e, he, q, hq, hqm, hmnt, hrc⟩
      exact hmpmand e he q hq hqm hmnt hrc
    cases ok2
    · refine ⟨s1, mp, [], [], by simp, hs1fr, hmpfr, by simp, by simp, by simp, by simp,
        ?_, ?_, by simp⟩
      · simpa [List.filterMap_append, hs1mv] using hmppre
      · simp only [List.append_nil, List.filterMap_append, hs1rv, hmprv, List.append_nil]
        exact List.nil_prefix
    · obtain ⟨hvis, hps'⟩ := hmpok rfl
      subst hps'
      obtain ⟨pv, hpv, hpvfr, hpvok, hpvmv, hpvrv⟩ :=
        mountInitNsPivot_trace w nsjconf.cwd (t ++ s1 ++ mp)
      simp only [Bool.true_eq_false, if_false]
      generalize mountInitNsPivot w nsjconf.cwd "/tmp/nsjail.root" "/tmp/nsjail.tmp"
        (t ++ s1 ++ mp) = pvr at hpv hpvok ⊢
      obtain ⟨ok3, t3⟩ := pvr
      simp only at hpv hpvok
      subst hpv
      cases ok3
      · refine ⟨s1, mp, pv, [], by simp, hs1fr, hmpfr, hpvfr, by simp, ?_, by simp,
          ?_, ?_, by simp⟩
        · intro hex
          have := hmand hex
          simp at this
        · simp only [List.append_nil, List.filterMap_append, hs1mv, hpvmv, hvis,
            List.nil_append]
          exact List.prefix_refl _
        · simp only [List.append_nil, List.filterMap_append, hs1rv, hmprv, hpvrv]
          exact List.nil_prefix
      · obtain ⟨ro, hro, hrofr, hropre, hrook, hromv⟩ :=
          remountPass_spec w (nsjconf.mountpts.map withContentFlags) (t ++ s1 ++ mp ++ pv)
        simp only [Bool.true_eq_false, if_false]
        generalize remountPass w (nsjconf.mountpts.map withContentFlags)
          (t ++ s1 ++ mp ++ pv) = ror at hro hrook ⊢
        obtain ⟨ok4, t4⟩ := ror
        simp only at hro hrook
        subst hro
        refine ⟨s1, mp, pv, ro, by simp, hs1fr, hmpfr, hpvfr, hrofr, ?_, fun _ => hpvok rfl,
          ?_, ?_, ?_⟩
        · intro hex
          have := hmand hex
          simp at this
        · simp only [List.filterMap_append, hs1mv, hpvmv, hvis, hromv, List.nil_append,
            List.append_nil]
          exact List.prefix_refl _
        · simpa [List.filterMap_append, hs1rv, hmprv, hpvrv] using hropre
        · intro hok
          simp only at hok
          refine ⟨?_, trivial, ?_⟩
          · simp [List.filterMap_append, hs1mv, hpvmv, hvis, hromv]
          · simpa [List.filterMap_append, hs1rv, hmprv, hpvrv] using hrook hok

theorem split_after_head {α : Type} (P : α → Prop) (A R pre post : List α) (e : α)
    (hA : ∀ x ∈ A, ¬ P x) (he : P e) (h : A ++ R = pre ++ e :: post) :
    ∃ q, pre = A ++ q ∧ R = q ++ e :: post := by
  rcases List.append_eq_append_iff.mp h with ⟨a', h1, h2⟩ | ⟨c', h1, h2⟩
  · exact ⟨a', h1, h2⟩
  · cases c' with
    | nil => exact ⟨[], by simpa using h1.symm, by simpa using h2.symm⟩
    | cons x c'' =>
      simp only [List.cons_append, List.cons.injEq] at h2
      exfalso
      apply hA e _ he
      rw [h1, h2.1]
      simp

/-! ## The claims on the executor and the orchestrator -/

/-- C7: `mountRemountRO` issues no call and returns `true` when the entry's
flags lack `MS_RDONLY`; when `MS_RDONLY` is set and `statvfs` on the
destination succeeds with flags `f`, it issues, after that `statvfs`, exactly
one call, a `mount` of the destination onto itself with a null filesystem type
and null data and with flags `MS_REMOUNT | MS_RDONLY | f`, in which every bit
of `f` is set. -/
theorem mountRemountRO_spec (w : World) (mpt : mounts_t) (t : List Event) :
    (mpt.flags &&& MS_RDONLY = 0 → mountRemountRO w mpt t = (true, t))
    ∧ (mpt.flags &&& MS_RDONLY ≠ 0 → (w t (Call.statvfs mpt.dst)).rc ≠ -1 →
        (mountRemountRO w mpt t).2
          = t ++ [ ⟨Frame.mountRemountRO mpt, Call.statvfs mpt.dst, w t (Call.statvfs mpt.dst)⟩,
                   ⟨Frame.mountRemountRO mpt,
                    Call.mount mpt.dst mpt.dst none
                      (MS_REMOUNT ||| MS_RDONLY ||| (w t (Call.statvfs mpt.dst)).data) none,
                    w (t ++ [⟨Frame.mountRemountRO mpt, Call.statvfs mpt.dst,
                        w t (Call.statvfs mpt.dst)⟩])
                      (Call.mount mpt.dst mpt.dst none
                        (MS_REMOUNT ||| MS_RDONLY ||| (w t (Call.statvfs mpt.dst)).data) none)⟩ ]
        ∧ ∀ i, (w t (Call.statvfs mpt.dst)).data.testBit i = true →
            (MS_REMOUNT ||| MS_RDONLY ||| (w t (Call.statvfs mpt.dst)).data).testBit i = true) := by
  refine ⟨?_, ?_⟩
  · intro h
    simp [mountRemountRO, h]
  · intro h hrc
    refine ⟨?_, ?_⟩
    · simp only [mountRemountRO, sys, h, hrc, if_false]
      split_ifs <;> simp
    · intro i hi
      simp [Nat.testBit_or, hi]

/-- C7 on a read-only bind of `/etc` whose filesystem reports
`MS_NOSUID | MS_NODEV`: one `statvfs`, then one remount with flags
`MS_REMOUNT | MS_RDONLY | MS_NOSUID | MS_NODEV`. -/
theorem mountRemountRO_spec_witness :
    etcEntry.flags &&& MS_RDONLY ≠ 0
    ∧ (worldWith noEnv allOk [] (Call.statvfs etcEntry.dst)).rc ≠ -1
    ∧ (mountRemountRO (worldWith noEnv allOk) etcEntry []).2
        = [ ⟨Frame.mountRemountRO etcEntry, Call.statvfs (some "/etc"), ⟨0, 0, 6, none⟩⟩,
            ⟨Frame.mountRemountRO etcEntry,
              Call.mount (some "/etc") (some "/etc") none 39 none, ⟨0, 0, 0, none⟩⟩ ]
    ∧ mountRemountRO (worldWith noEnv allOk) tmpEntry [] = (true, []) := by
  have h := mountRemountRO_spec (worldWith noEnv allOk) etcEntry []
  have h2 := mountRemountRO_spec (worldWith noEnv allOk) tmpEntry []
  refine ⟨by decide, by decide, ?_, h2.1 (by decide)⟩
  rw [(h.2 (by decide) (by decide)).1]
  decide

/-- C8: `mountMount` issues no `mount` call when it returns early (the parent
directories cannot be created, or the temp file for inline content cannot be
created or written), and then returns `false`; in every other run it issues
exactly one `mount` call, on the source path, the destination under the new
root, and the entry's filesystem type and options, whose flags are the entry's
flags, with `MS_BIND | MS_REC` OR-ed in when the entry has inline content, and
with `MS_RDONLY` cleared. In particular a run that returns `true` has issued
exactly one `mount`. In every `mount` call of `mountMount` the read-only bit is
not set and every other bit of the word is the bit of those flags, so every
other bit set in the entry's flags is passed on. -/
theorem mountMount_mount_flags (w : World) (mpt : mounts_t) (newroot tmpdir : String)
    (t : List Event) :
    ∃ new, (mountMount w mpt newroot tmpdir t).2 = t ++ new
      ∧ (∀ e ∈ new, ∀ s d f fl o, e.call = Call.mount s d f fl o →
          fl = (mpt.flags ||| (if mpt.src_content.isSome then MS_BIND ||| MS_REC else 0))
                &&& notW MS_RDONLY
          ∧ fl &&& MS_RDONLY = 0
          ∧ (∀ i, 0 < i → i < 64 → fl.testBit i
              = (mpt.flags ||| (if mpt.src_content.isSome then MS_BIND ||| MS_REC else 0)).testBit i)
          ∧ (∀ i, 0 < i → i < 64 → mpt.flags.testBit i = true → fl.testBit i = true))
      ∧ (((mountMountNode w mpt (mountMountDst mpt newroot) t).1 = false
          ∨ (mountMountContent w mpt (mountMountSrcpath mpt) tmpdir
              (mountMountNode w mpt (mountMountDst mpt newroot) t).2).1 = none) →
          new.filter (fun e => e.call.isMount) = []
          ∧ (mountMount w mpt newroot tmpdir t).1.1 = false)
      ∧ ((mountMountNode w mpt (mountMountDst mpt newroot) t).1 = true →
          ∀ sp m, (mountMountContent w mpt (mountMountSrcpath mpt) tmpdir
              (mountMountNode w mpt (mountMountDst mpt newroot) t).2).1 = some (sp, m) →
          ∃ r, new.filter (fun e => e.call.isMount)
            = [⟨Frame.mountMount mpt,
                Call.mount (some sp) (some (mountMountDst mpt newroot)) mpt.fs_type
                  ((mpt.flags ||| (if mpt.src_content.isSome then MS_BIND ||| MS_REC else 0))
                    &&& notW MS_RDONLY) mpt.options, r⟩])
      ∧ (mpt.src_content = none →
          (w t (Call.utilCreateDirRecursively (mountMountDst mpt newroot))).rc ≠ 0 →
          ∃ r, new.filter (fun e => e.call.isMount)
            = [⟨Frame.mountMount mpt,
                Call.mount (some (mountMountSrcpath mpt)) (some (mountMountDst mpt newroot))
                  mpt.fs_type (mpt.flags &&& notW MS_RDONLY) mpt.options, r⟩])
      ∧ ((mountMount w mpt newroot tmpdir t).1.1 = true →
          (new.filter (fun e => e.call.isMount)).length = 1) := by
  obtain ⟨new, hnew, -, hfl, -, -, -⟩ := mountMount_spec w mpt newroot tmpdir t
  obtain ⟨new', hnew', hearly, hone⟩ := mountMount_mounts w mpt newroot tmpdir t
  have hsame : new' = new := List.append_cancel_left (hnew'.symm.trans hnew)
  subst hsame
  refine ⟨new', hnew, ?_, hearly, hone, ?_, ?_⟩
  · intro e he s d f fl o hcall
    have hfl' := hfl e he s d f fl o hcall
    simp only [withContentFlags] at hfl'
    have hbit : ∀ i, 0 < i → i < 64 → fl.testBit i
        = (mpt.flags ||| (if mpt.src_content.isSome then MS_BIND ||| MS_REC else 0)).testBit i := by
      intro i h0 h64
      rw [hfl', notW_rdonly_testBit]
      simp [h64, Nat.pos_iff_ne_zero.mp h0]
    refine ⟨hfl', ?_, hbit, ?_⟩
    · have h0 : fl.testBit 0 = false := by
        rw [hfl', notW_rdonly_testBit]
        simp
      have : fl &&& 2 ^ 0 = 0 := by
        rw [Nat.and_two_pow, h0]
        simp
      simpa [MS_RDONLY] using this
    · intro i h0 h64 hi
      rw [hbit i h0 h64, Nat.testBit_or, hi]
      simp
  · intro hc hrc
    have hn := mountMountNode_ok w mpt (mountMountDst mpt newroot) t hrc
    have hcont := mountMountContent_none w mpt (mountMountSrcpath mpt) tmpdir
      (mountMountNode w mpt (mountMountDst mpt newroot) t).2 hc
    obtain ⟨r, hr⟩ := hone hn (mountMountSrcpath mpt) mpt (by rw [hcont])
    refine ⟨r, ?_⟩
    rw [hr]
    simp [withContentFlags, hc]
  · intro hres
    cases hn : (mountMountNode w mpt (mountMountDst mpt newroot) t).1 with
    | false =>
      have := (hearly (Or.inl hn)).2
      rw [hres] at this
      cases this
    | true =>
      cases hc : (mountMountContent w mpt (mountMountSrcpath mpt) tmpdir
          (mountMountNode w mpt (mountMountDst mpt newroot) t).2).1 with
      | none =>
        have := (hearly (Or.inr hc)).2
        rw [hres] at this
        cases this
      | some pr =>
        obtain ⟨sp, m⟩ := pr
        obtain ⟨r, hr⟩ := hone hn sp m hc
        rw [hr]
        rfl

/-- C5: with mount-namespace isolation requested, every call that
`mountRemountRO` issues comes after the four calls of the pivot block
(`umount2` of the scratch directory, `pivot_root`, `umount2` of `/`, `chdir`
to the configured directory), each of which succeeded; and when a `mount`
issued by `mountMount` on a mandatory entry fails, `mountInitNsInternal`
returns `false` and its trace holds no `pivot_root` and no call of
`mountRemountRO`. -/
theorem remount_only_after_pivot (w : World) (nsjconf : nsjconf_t) (t : List Event)
    (h : nsjconf.clone_newns = true) :
    ∃ new, (mountInitNsInternal w nsjconf t).2 = t ++ new
      ∧ (∀ pre e post, new = pre ++ e :: post → e.frame.isRemountRO = true →
          ∃ p0 p1 r1 r2 r3 r4, pre = p0 ++ pivotEvents nsjconf.cwd r1 r2 r3 r4 ++ p1
            ∧ r1.rc ≠ -1 ∧ r2.rc ≠ -1 ∧ r3.rc ≠ -1 ∧ r4.rc ≠ -1)
      ∧ ((∃ e ∈ new, mandatoryMountFailure e) →
          (mountInitNsInternal w nsjconf t).1.1 = false
          ∧ ∀ e ∈ new, e.call.isPivot = false ∧ e.frame.isRemountRO = false) := by
  obtain ⟨stag, mp, piv, ro, hnew, hstag, hmp, hpiv, hro, hmand, hfour, -, -, -⟩ :=
    mountInitNsInternal_shape w nsjconf t h
  have hA : ∀ x ∈ stag ++ mp ++ piv, ¬ x.frame.isRemountRO = true := by
    intro x hx
    rcases List.mem_append.mp hx with hx | hx
    · rcases List.mem_append.mp hx with hx | hx
      · simp [(hstag x hx).1, Frame.isRemountRO]
      · have := (hmp x hx).1
        cases hf : x.frame <;> simp [hf, Frame.isMountMount, Frame.isRemountRO] at this ⊢
    · simp [hpiv x hx, Frame.isRemountRO]
  refine ⟨stag ++ mp ++ piv ++ ro, hnew, ?_, ?_⟩
  · intro pre e post hsplit he
    obtain ⟨q, hq1, hq2⟩ :=
      split_after_head (fun x : Event => x.frame.isRemountRO = true) _ _ _ _ e hA he hsplit
    have hne : ro ≠ [] := by
      rw [hq2]
      simp
    obtain ⟨r1, r2, r3, r4, hp, h1, h2, h3, h4⟩ := hfour hne
    exact ⟨stag ++ mp, q, r1, r2, r3, r4, by rw [hq1, hp], h1, h2, h3, h4⟩
  · rintro ⟨e, he, hfail⟩
    have hemp : e ∈ mp := by
      obtain ⟨p, hp, -, -, -⟩ := hfail
      rcases List.mem_append.mp he with he | he
      · rcases List.mem_append.mp he with he | he
        · rcases List.mem_append.mp he with he | he
          · have := (hstag e he).1
            rw [hp] at this
            cases this
          · exact he
        · have := hpiv e he
          rw [hp] at this
          cases this
      · have := hro e he
        rw [hp] at this
        simp [Frame.isRemountRO] at this
    obtain ⟨hpivnil, hronil, hres⟩ := hmand ⟨e, hemp, hfail⟩
    refine ⟨hres, ?_⟩
    intro x hx
    rw [hpivnil, hronil] at hx
    simp only [List.append_nil] at hx
    rcases List.mem_append.mp hx with hx | hx
    · simp [(hstag x hx).1, (hstag x hx).2, Frame.isRemountRO]
    · have := hmp x hx
      refine ⟨this.2, ?_⟩
      cases hf : x.frame <;> simp [hf, Frame.isMountMount, Frame.isRemountRO] at this ⊢

/-! ## Lemmas on the registry -/

theorem mountAddEnvPath_none (w : World) (path : Option String) (t : List Event) :
    mountAddEnvPath w path none t = (some path, t) := by
  simp [mountAddEnvPath, utilStrDup]

theorem mountAddEnvPath_unset (w : World) (path : Option String) (v : String) (t : List Event)
    (h : (w t (Call.getenv v)).str = none) :
    (mountAddEnvPath w path (some v) t).1 = none := by
  simp [mountAddEnvPath, sys, h]

theorem mountAddEnvPath_set (w : World) (path : Option String) (v e : String) (t : List Event)
    (h : (w t (Call.getenv v)).str = some e)
    (ha : ∀ t' s, (w t' (Call.asprintf s)).rc ≠ -1) :
    (mountAddEnvPath w path (some v) t).1 = some (some (e ++ path.getD "")) := by
  simp [mountAddEnvPath, sys, h, ha]

theorem mountAddEnvPath_some (w : World) (path env : Option String) (t : List Event)
    (r : Option String) (h : (mountAddEnvPath w path env t).1 = some r) :
    (env = none ∧ r = path)
    ∨ (∃ v e, env = some v ∧ (w t (Call.getenv v)).str = some e
        ∧ r = some (e ++ path.getD "")) := by
  cases env with
  | none =>
    left
    simp only [mountAddEnvPath_none, Option.some.injEq] at h
    exact ⟨rfl, h.symm⟩
  | some v =>
    right
    simp only [mountAddEnvPath, sys] at h
    split at h
    · simp at h
    · rename_i val hval
      split_ifs at h
      simp only [Option.some.injEq] at h
      exact ⟨v, val, rfl, hval, h.symm⟩

theorem mountAddMountPt_false (w : World) (nsjconf : nsjconf_t)
    (src dst fstype options : Option String) (flags : Nat) (isDir : Option Bool)
    (mandatory : Bool) (src_env dst_env : Option String) (src_content : Option (List Nat))
    (src_content_len : Nat) (t : List Event)
    (h : (mountAddMountPt w nsjconf src dst fstype options flags isDir mandatory src_env
      dst_env src_content src_content_len t).1.1 = false) :
    (mountAddMountPt w nsjconf src dst fstype options flags isDir mandatory src_env
      dst_env src_content src_content_len t).1.2 = nsjconf := by
  simp only [mountAddMountPt] at h ⊢
  cases hs : (mountAddEnvPath w src src_env t).1 with
  | none => simp [hs]
  | some psrc =>
    simp only [hs] at h ⊢
    cases hd : (mountAddEnvPath w dst dst_env (mountAddEnvPath w src src_env t).2).1 with
    | none => simp [hd]
    | some pdst => simp [hd] at h

theorem mountAddMountPt_true (w : World) (nsjconf : nsjconf_t)
    (src dst fstype options : Option String) (flags : Nat) (isDir : Option Bool)
    (mandatory : Bool) (src_env dst_env : Option String) (src_content : Option (List Nat))
    (src_content_len : Nat) (t : List Event)
    (h : (mountAddMountPt w nsjconf src dst fstype options flags isDir mandatory src_env
      dst_env src_content src_content_len t).1.1 = true) :
    ∃ psrc pdst,
      (mountAddEnvPath w src src_env t).1 = some psrc
      ∧ (mountAddEnvPath w dst dst_env (mountAddEnvPath w src src_env t).2).1 = some pdst
      ∧ (mountAddMountPt w nsjconf src dst fstype options flags isDir mandatory src_env
          dst_env src_content src_content_len t)
        = ((true, { nsjconf with mountpts := nsjconf.mountpts ++
            [{ src := (mountAddRealpath w psrc flags
                  (mountAddEnvPath w dst dst_env (mountAddEnvPath w src src_env t).2).2).1
               dst := pdst
               fs_type := fstype
               options := options
               flags := flags
               isDir := (mountAddIsDir w
                  (mountAddRealpath w psrc flags
                    (mountAddEnvPath w dst dst_env (mountAddEnvPath w src src_env t).2).2).1
                  flags isDir src_content
                  (mountAddRealpath w psrc flags
                    (mountAddEnvPath w dst dst_env (mountAddEnvPath w src src_env t).2).2).2).1
               mandatory := mandatory
               src_content := utilMemDup src_content src_content_len
               src_content_len := src_content_len }] }),
          (mountAddIsDir w
            (mountAddRealpath w psrc flags
              (mountAddEnvPath w dst dst_env (mountAddEnvPath w src src_env t).2).2).1
            flags isDir src_content
            (mountAddRealpath w psrc flags
              (mountAddEnvPath w dst dst_env (mountAddEnvPath w src src_env t).2).2).2).2) := by
  simp only [mountAddMountPt] at h ⊢
  cases hs : (mountAddEnvPath w src src_env t).1 with
  | none => simp [hs] at h
  | some psrc =>
    simp only [hs] at h ⊢
    cases hd : (mountAddEnvPath w dst dst_env (mountAddEnvPath w src src_env t).2).1 with
    | none => simp [hd] at h
    | some pdst =>
      refine ⟨psrc, pdst, rfl, rfl, ?_⟩
      simp only [hd, utilStrDup]

theorem mountAddRealpath_bind (w : World) (s : String) (flags : Nat) (t : List Event)
    (hf : flags &&& MS_BIND ≠ 0) :
    mountAddRealpath w (some s) flags t
      = (some ((w t (Call.realpath s)).str.getD s),
          t ++ [⟨Frame.mountAddMountPt, Call.realpath s, w t (Call.realpath s)⟩]) := by
  simp only [mountAddRealpath, sys]
  rw [if_pos hf]
  cases (w t (Call.realpath s)).str <;> rfl

theorem mountAddIsDir_trace (w : World) (psrc : Option String) (pflags : Nat)
    (isDir : Option Bool) (src_content : Option (List Nat)) (t : List Event) :
    ∃ new, (mountAddIsDir w psrc pflags isDir src_content t).2 = t ++ new := by
  simp only [mountAddIsDir, mountIsDir, sys]
  split
  · exact ⟨[], by simp⟩
  · split_ifs
    · exact ⟨[], by simp⟩
    · exact ⟨[], by simp⟩
    · split
      · exact ⟨[], by simp⟩
      · split_ifs <;> exact ⟨_, rfl⟩
    · exact ⟨[], by simp⟩

theorem append_ne_empty (e d : String) (h : d ≠ "") : e ++ d ≠ "" := by
  intro hh
  apply h
  have h1 : (e ++ d).data = [] := by rw [hh]
  rw [String.data_append] at h1
  have h2 : d.data = [] := (List.append_eq_nil.mp h1).2
  exact String.ext h2

theorem mountAddMountPt_dst_stored (w : World) (nsjconf : nsjconf_t)
    (src dst fstype options : Option String) (flags : Nat) (isDir : Option Bool)
    (mandatory : Bool) (src_env dst_env : Option String) (src_content : Option (List Nat))
    (src_content_len : Nat) (t : List Event)
    (hok : (mountAddMountPt w nsjconf src dst fstype options flags isDir mandatory src_env
      dst_env src_content src_content_len t).1.1 = true) :
    ∃ p, (mountAddMountPt w nsjconf src dst fstype options flags isDir mandatory src_env
        dst_env src_content src_content_len t).1.2.mountpts = nsjconf.mountpts ++ [p]
      ∧ ((dst_env = none ∧ p.dst = dst)
        ∨ (∃ v e, dst_env = some v
            ∧ (w (mountAddEnvPath w src src_env t).2 (Call.getenv v)).str = some e
            ∧ p.dst = some (e ++ dst.getD ""))) := by
  obtain ⟨psrc, pdst, -, hpd, heq⟩ := mountAddMountPt_true w nsjconf src dst fstype options
    flags isDir mandatory src_env dst_env src_content src_content_len t hok
  rw [heq]
  exact ⟨_, rfl, mountAddEnvPath_some w dst dst_env _ pdst hpd⟩

/-! ## The claims on the registry -/

/-- C2 at a concrete call: a bind mount, not overridden and without inline
content, whose source can be neither resolved nor stat-ed, is registered
successfully and stored as a file (`isDir = false`), not as a directory. -/
theorem mountAddMountPt_isDir_counterexample :
    (mountAddMountPt
        (worldWith noEnv (fun c => c = Call.stat "/nonexistent" || c = Call.realpath "/nonexistent"))
        (confOf []) (some "/nonexistent") (some "/mnt") none none MS_BIND none false none none
        none 0 []).1.1 = true
    ∧ (mountAddMountPt
        (worldWith noEnv (fun c => c = Call.stat "/nonexistent" || c = Call.realpath "/nonexistent"))
        (confOf []) (some "/nonexistent") (some "/mnt") none none MS_BIND none false none none
        none 0 []).2
      = [ ⟨Frame.mountAddMountPt, Call.realpath "/nonexistent", ⟨-1, 13, 0, none⟩⟩,
          ⟨Frame.mountIsDir (some "/nonexistent"), Call.stat "/nonexistent",
            ⟨-1, 13, 0, none⟩⟩ ]
    ∧ (mountAddMountPt
        (worldWith noEnv (fun c => c = Call.stat "/nonexistent" || c = Call.realpath "/nonexistent"))
        (confOf []) (some "/nonexistent") (some "/mnt") none none MS_BIND none false none none
        none 0 []).1.2.mountpts.map (fun p => (p.src, p.isDir))
      = [(some "/nonexistent", false)] := by
  decide

/-- C2, amended: after a successful `mountAddMountPt` the appended entry's
`isDir` is the override when one is given; otherwise `false` when inline
content is given; otherwise `true` when the stored source is `NULL` or the
bind flag is not set; otherwise (bind flag set, stored source `s`) the last
call made is `stat(s)` and `isDir` is `true` exactly when that `stat` succeeded
and reported a directory, so that a bind whose source cannot be stat-ed is
stored as a file. -/
theorem mountAddMountPt_isDir (w : World) (nsjconf : nsjconf_t)
    (src dst fstype options : Option String) (flags : Nat) (isDir : Option Bool)
    (mandatory : Bool) (src_env dst_env : Option String) (src_content : Option (List Nat))
    (src_content_len : Nat) (t : List Event)
    (hok : (mountAddMountPt w nsjconf src dst fstype options flags isDir mandatory src_env
      dst_env src_content src_content_len t).1.1 = true) :
    ∃ p, (mountAddMountPt w nsjconf src dst fstype options flags isDir mandatory src_env
        dst_env src_content src_content_len t).1.2.mountpts = nsjconf.mountpts ++ [p]
      ∧ (∀ b, isDir = some b → p.isDir = b)
      ∧ (isDir = none → src_content ≠ none → p.isDir = false)
      ∧ (isDir = none → src_content = none → p.src = none → p.isDir = true)
      ∧ (isDir = none → src_content = none → flags &&& MS_BIND = 0 → p.isDir = true)
      ∧ (isDir = none → src_content = none → flags &&& MS_BIND ≠ 0 → ∀ s, p.src = some s →
          ∃ pre r,
            (mountAddMountPt w nsjconf src dst fstype options flags isDir mandatory src_env
              dst_env src_content src_content_len t).2
              = pre ++ [⟨Frame.mountIsDir (some s), Call.stat s, r⟩]
            ∧ r = w pre (Call.stat s)
            ∧ p.isDir = decide (r.rc ≠ -1 ∧ r.data &&& S_IFMT = S_IFDIR)) := by
  obtain ⟨psrc, pdst, -, -, heq⟩ := mountAddMountPt_true w nsjconf src dst fstype options
    flags isDir mandatory src_env dst_env src_content src_content_len t hok
  rw [heq]
  generalize (mountAddRealpath w psrc flags
    (mountAddEnvPath w dst dst_env (mountAddEnvPath w src src_env t).2).2) = rp
  obtain ⟨rsrc, t2⟩ := rp
  refine ⟨_, rfl, ?_, ?_, ?_, ?_, ?_⟩
  · intro b hb
    simp [mountAddIsDir, hb]
  · intro hn hc
    have : src_content.isSome = true := by
      cases src_content with
      | none => exact absurd rfl hc
      | some _ => rfl
    simp [mountAddIsDir, hn, this]
  · intro hn hc hs
    simp only at hs
    simp [mountAddIsDir, hn, hc, hs]
  · intro hn hc hf
    simp only [mountAddIsDir, hn, hc, hf]
    cases rsrc <;> simp
  · intro hn hc hf s hs
    simp only at hs
    subst hs
    refine ⟨t2, w t2 (Call.stat s), ?_, rfl, ?_⟩
    · simp only [mountAddIsDir, hn, hc, mountIsDir, sys]
      simp only [Option.isSome_none, Bool.false_eq_true, if_false, hf]
      split_ifs <;> simp_all
    · simp only [mountAddIsDir, hn, hc, mountIsDir, sys]
      simp only [Option.isSome_none, Bool.false_eq_true, if_false, hf]
      split_ifs <;> simp_all

/-- C2, amended, on a bind of `/etc` in an environment where every call
succeeds: the entry is stored as a directory, after a `stat` of the source. -/
theorem mountAddMountPt_isDir_witness :
    (mountAddMountPt (worldWith noEnv allOk) (confOf []) (some "/etc") (some "/etc") none none
      MS_BIND none true none none none 0 []).1.1 = true
    ∧ ∃ p, (mountAddMountPt (worldWith noEnv allOk) (confOf []) (some "/etc") (some "/etc")
          none none MS_BIND none true none none none 0 []).1.2.mountpts
          = (confOf []).mountpts ++ [p]
        ∧ (∀ b, (none : Option Bool) = some b → p.isDir = b)
        ∧ ((none : Option Bool) = none → (none : Option (List Nat)) ≠ none → p.isDir = false)
        ∧ ((none : Option Bool) = none → (none : Option (List Nat)) = none → p.src = none →
            p.isDir = true)
        ∧ ((none : Option Bool) = none → (none : Option (List Nat)) = none →
            MS_BIND &&& MS_BIND = 0 → p.isDir = true)
        ∧ ((none : Option Bool) = none → (none : Option (List Nat)) = none →
            MS_BIND &&& MS_BIND ≠ 0 → ∀ s, p.src = some s →
            ∃ pre r,
              (mountAddMountPt (worldWith noEnv allOk) (confOf []) (some "/etc") (some "/etc")
                none none MS_BIND none true none none none 0 []).2
                = pre ++ [⟨Frame.mountIsDir (some s), Call.stat s, r⟩]
              ∧ r = worldWith noEnv allOk pre (Call.stat s)
              ∧ p.isDir = decide (r.rc ≠ -1 ∧ r.data &&& S_IFMT = S_IFDIR)) :=
  ⟨by decide,
    mountAddMountPt_isDir (worldWith noEnv allOk) (confOf []) (some "/etc") (some "/etc") none
      none MS_BIND none true none none none 0 [] (by decide)⟩

/-- C3 at a concrete call: `src_env` is absent, `dst_env` names `FOO`, and
`FOO` is set to `/abc`, as the `getenv` in the trace shows; the `asprintf`
that builds the destination fails. The call returns `false` and appends
nothing, although the variable is set. -/
theorem mountAddMountPt_env_counterexample :
    (mountAddMountPt (worldWith fooEnv (fun c => c = Call.asprintf "/abc")) (confOf []) none
        (some "") none none 0 none false none (some "FOO") none 0 []).2
      = [ ⟨Frame.mountAddMountPt, Call.getenv "FOO", ⟨0, 0, 0, some "/abc"⟩⟩,
          ⟨Frame.mountAddMountPt, Call.asprintf "/abc", ⟨-1, 13, 0, none⟩⟩ ]
    ∧ (mountAddMountPt (worldWith fooEnv (fun c => c = Call.asprintf "/abc")) (confOf []) none
        (some "") none none 0 none false none (some "FOO") none 0 []).1.1 = false
    ∧ (mountAddMountPt (worldWith fooEnv (fun c => c = Call.asprintf "/abc")) (confOf []) none
        (some "") none none 0 none false none (some "FOO") none 0 []).1.2.mountpts = [] := by
  decide

/-- C3, amended: a call whose `dst_env` (or `src_env`) variable is unset
returns `false` and leaves the configuration as it was. When every variable
the call names is set and its `asprintf` calls succeed, the call returns
`true` and appends one entry: with `dst_env` set to `e` its destination is
`e` followed by the `dst` argument (nothing for `NULL`); with `src_env` set
to `e` its source, before canonicalization, is `e` followed by the `src`
argument: that string is stored when the bind flag is not set, and it is the
argument of `realpath` when the bind flag is set. -/
theorem mountAddMountPt_env (w : World) (nsjconf : nsjconf_t)
    (src dst fstype options : Option String) (flags : Nat) (isDir : Option Bool)
    (mandatory : Bool) (src_env dst_env : Option String) (src_content : Option (List Nat))
    (src_content_len : Nat) (t : List Event) :
    (∀ v, dst_env = some v → (∀ t', (w t' (Call.getenv v)).str = none) →
      (mountAddMountPt w nsjconf src dst fstype options flags isDir mandatory src_env
        dst_env src_content src_content_len t).1 = (false, nsjconf))
    ∧ (∀ v, src_env = some v → (∀ t', (w t' (Call.getenv v)).str = none) →
      (mountAddMountPt w nsjconf src dst fstype options flags isDir mandatory src_env
        dst_env src_content src_content_len t).1 = (false, nsjconf))
    ∧ ((∀ v, src_env = some v → ∃ e, ∀ t', (w t' (Call.getenv v)).str = some e) →
       (∀ v, dst_env = some v → ∃ e, ∀ t', (w t' (Call.getenv v)).str = some e) →
       (∀ t' s, (w t' (Call.asprintf s)).rc ≠ -1) →
        (mountAddMountPt w nsjconf src dst fstype options flags isDir mandatory src_env
          dst_env src_content src_content_len t).1.1 = true
        ∧ ∃ p, (mountAddMountPt w nsjconf src dst fstype options flags isDir mandatory
            src_env dst_env src_content src_content_len t).1.2.mountpts
              = nsjconf.mountpts ++ [p]
          ∧ (∀ v e, dst_env = some v → (∀ t', (w t' (Call.getenv v)).str = some e) →
              p.dst = some (e ++ dst.getD ""))
          ∧ (∀ v e, src_env = some v → (∀ t', (w t' (Call.getenv v)).str = some e) →
              (flags &&& MS_BIND = 0 → p.src = some (e ++ src.getD ""))
              ∧ (flags &&& MS_BIND ≠ 0 → ∃ r,
                  (⟨Frame.mountAddMountPt, Call.realpath (e ++ src.getD ""), r⟩ : Event)
                    ∈ (mountAddMountPt w nsjconf src dst fstype options flags isDir mandatory
                        src_env dst_env src_content src_content_len t).2
                  ∧ p.src = some (r.str.getD (e ++ src.getD ""))))) := by
  refine ⟨?_, ?_, ?_⟩
  · intro v hv hunset
    subst hv
    simp only [mountAddMountPt]
    cases hs : (mountAddEnvPath w src src_env t).1 with
    | none => rfl
    | some psrc =>
      simp only [mountAddEnvPath_unset w dst v _ (hunset _)]
  · intro v hv hunset
    subst hv
    simp only [mountAddMountPt, mountAddEnvPath_unset w src v _ (hunset _)]
  · intro hsrc hdst hasp
    have hs : ∃ psrc, (mountAddEnvPath w src src_env t).1 = some psrc
        ∧ (∀ v e, src_env = some v → (∀ t', (w t' (Call.getenv v)).str = some e) →
            psrc = some (e ++ src.getD "")) := by
      cases src_env with
      | none => exact ⟨src, by simp [mountAddEnvPath_none], by simp⟩
      | some v =>
        obtain ⟨e, he⟩ := hsrc v rfl
        refine ⟨_, mountAddEnvPath_set w src v e t (he t) hasp, ?_⟩
        intro v' e' hv' he'
        simp only [Option.some.injEq] at hv'
        subst hv'
        have := (he t).symm.trans (he' t)
        simp only [Option.some.injEq] at this
        rw [this]
    obtain ⟨psrc, hps, hpsrc⟩ := hs
    have hd : ∃ pdst, (mountAddEnvPath w dst dst_env (mountAddEnvPath w src src_env t).2).1
          = some pdst
        ∧ (∀ v e, dst_env = some v → (∀ t', (w t' (Call.getenv v)).str = some e) →
            pdst = some (e ++ dst.getD "")) := by
      cases dst_env with
      | none => exact ⟨dst, by simp [mountAddEnvPath_none], by simp⟩
      | some v =>
        obtain ⟨e, he⟩ := hdst v rfl
        refine ⟨_, mountAddEnvPath_set w dst v e _ (he _) hasp, ?_⟩
        intro v' e' hv' he'
        simp only [Option.some.injEq] at hv'
        subst hv'
        have := (he t).symm.trans (he' t)
        simp only [Option.some.injEq] at this
        rw [this]
    obtain ⟨pdst, hpd, hpdst⟩ := hd
    have hok : (mountAddMountPt w nsjconf src dst fstype options flags isDir mandatory src_env
        dst_env src_content src_content_len t).1.1 = true := by
      simp only [mountAddMountPt, hps, hpd]
    refine ⟨hok, ?_⟩
    obtain ⟨psrc', pdst', hps', hpd', heq⟩ := mountAddMountPt_true w nsjconf src dst fstype
      options flags isDir mandatory src_env dst_env src_content src_content_len t hok
    rw [hps] at hps'
    rw [hpd] at hpd'
    simp only [Option.some.injEq] at hps' hpd'
    subst hps' hpd'
    rw [heq]
    refine ⟨_, rfl, ?_, ?_⟩
    · intro v e hv he
      exact hpdst v e hv he
    · intro v e hv he
      have hp := hpsrc v e hv he
      subst hp
      refine ⟨?_, ?_⟩
      · intro hf
        simp [mountAddRealpath, hf]
      · intro hf
        rw [mountAddRealpath_bind w _ flags _ hf]
        refine ⟨_, ?_, rfl⟩
        obtain ⟨new, hnew⟩ := mountAddIsDir_trace w
          (some ((w (mountAddEnvPath w dst dst_env (mountAddEnvPath w src src_env t).2).2
            (Call.realpath (e ++ src.getD ""))).str.getD (e ++ src.getD "")))
          flags isDir src_content
          ((mountAddEnvPath w dst dst_env (mountAddEnvPath w src src_env t).2).2 ++
            [⟨Frame.mountAddMountPt, Call.realpath (e ++ src.getD ""),
              w (mountAddEnvPath w dst dst_env (mountAddEnvPath w src src_env t).2).2
                (Call.realpath (e ++ src.getD ""))⟩])
        simp only [hnew]
        simp

/-- C3, amended, on the scenario of the spec: with `FOO=/abc`, registering the
destination `""` under `dst_env = "FOO"` succeeds and stores `/abc`. -/
theorem mountAddMountPt_env_witness :
    (mountAddMountPt (worldWith fooEnv allOk) (confOf []) none (some "") none none 0 none
      false none (some "FOO") none 0 []).1.1 = true
    ∧ ∃ p, (mountAddMountPt (worldWith fooEnv allOk) (confOf []) none (some "") none none 0
          none false none (some "FOO") none 0 []).1.2.mountpts = (confOf []).mountpts ++ [p]
        ∧ p.dst = some "/abc" := by
  have h := (mountAddMountPt_env (worldWith fooEnv allOk) (confOf []) none (some "") none none
    0 none false none (some "FOO") none 0 []).2.2
    (by intro v hv; cases hv)
    (by
      intro v hv
      cases hv
      exact ⟨"/abc", fun _ => rfl⟩)
    (by
      intro t' s
      simp [worldWith, allOk, okRet])
  obtain ⟨hok, p, hp, hdst, -⟩ := h
  refine ⟨hok, p, hp, ?_⟩
  have := hdst "FOO" "/abc" rfl (fun _ => rfl)
  rw [this]
  decide

/-- C9 at two concrete calls: a call with a `NULL` destination, and a call
with an empty destination, each succeed and store an entry whose destination
is absent, respectively empty. -/
theorem mountAddMountPt_dst_counterexample :
    (mountAddMountPt (worldWith noEnv allOk) (confOf []) none none (some "tmpfs") none 0 none
      true none none none 0 []).1.1 = true
    ∧ (mountAddMountPt (worldWith noEnv allOk) (confOf []) none none (some "tmpfs") none 0 none
      true none none none 0 []).1.2.mountpts.map (fun p => p.dst) = [none]
    ∧ (mountAddMountPt (worldWith noEnv allOk) (confOf []) none (some "") (some "tmpfs") none 0
      none true none none none 0 []).1.1 = true
    ∧ (mountAddMountPt (worldWith noEnv allOk) (confOf []) none (some "") (some "tmpfs") none 0
      none true none none none 0 []).1.2.mountpts.map (fun p => p.dst) = [some ""] := by
  decide

/-- C9, amended: `mountAddMountPt` stores the destination it assembles without
checking it. A successful call appends one entry whose destination is the
`dst` argument itself when `dst_env` is absent, and the value `getenv` returned
for the variable followed by the `dst` argument otherwise; that destination is
a non-empty string exactly when, without `dst_env`, `dst` is a non-empty
string, or, with `dst_env`, the value followed by `dst` is non-empty. Hence,
when the entries already registered have non-empty destinations and the
destination the call assembles is non-empty in that sense, every entry of the
resulting sequence has a non-empty destination. -/
theorem mountAddMountPt_dst (w : World) (nsjconf : nsjconf_t)
    (src dst fstype options : Option String) (flags : Nat) (isDir : Option Bool)
    (mandatory : Bool) (src_env dst_env : Option String) (src_content : Option (List Nat))
    (src_content_len : Nat) (t : List Event) :
    ((mountAddMountPt w nsjconf src dst fstype options flags isDir mandatory src_env dst_env
        src_content src_content_len t).1.1 = true →
      ∃ p, (mountAddMountPt w nsjconf src dst fstype options flags isDir mandatory src_env
          dst_env src_content src_content_len t).1.2.mountpts = nsjconf.mountpts ++ [p]
        ∧ (dst_env = none → p.dst = dst)
        ∧ (∀ v, dst_env = some v → ∃ e,
            (w (mountAddEnvPath w src src_env t).2 (Call.getenv v)).str = some e
            ∧ p.dst = some (e ++ dst.getD ""))
        ∧ ((∃ s, p.dst = some s ∧ s ≠ "") ↔
            ((dst_env = none ∧ ∃ d, dst = some d ∧ d ≠ "")
            ∨ (∃ v e, dst_env = some v
                ∧ (w (mountAddEnvPath w src src_env t).2 (Call.getenv v)).str = some e
                ∧ e ++ dst.getD "" ≠ ""))))
    ∧ ((∀ q ∈ nsjconf.mountpts, ∃ s, q.dst = some s ∧ s ≠ "") →
        (dst_env = none → ∃ d, dst = some d ∧ d ≠ "") →
        (∀ v, dst_env = some v → ∀ e,
          (w (mountAddEnvPath w src src_env t).2 (Call.getenv v)).str = some e →
          e ++ dst.getD "" ≠ "") →
        ∀ q ∈ (mountAddMountPt w nsjconf src dst fstype options flags isDir mandatory src_env
          dst_env src_content src_content_len t).1.2.mountpts, ∃ s, q.dst = some s ∧ s ≠ "") := by
  refine ⟨?_, ?_⟩
  · intro hok
    obtain ⟨p, hp, hst⟩ := mountAddMountPt_dst_stored w nsjconf src dst fstype options flags
      isDir mandatory src_env dst_env src_content src_content_len t hok
    refine ⟨p, hp, ?_, ?_, ?_⟩
    · intro hn
      rcases hst with ⟨-, h⟩ | ⟨v, e, hv, -, -⟩
      · exact h
      · rw [hn] at hv
        cases hv
    · intro v hv
      rcases hst with ⟨hn, -⟩ | ⟨v', e, hv', he, h⟩
      · rw [hn] at hv
        cases hv
      · rw [hv'] at hv
        cases hv
        exact ⟨e, he, h⟩
    · rcases hst with ⟨hn, h⟩ | ⟨v, e, hv, he, h⟩
      · constructor
        · rintro ⟨s, hs, hne⟩
          exact Or.inl ⟨hn, s, by rw [← h, hs], hne⟩
        · rintro (⟨-, d, hd, hne⟩ | ⟨v, e, hv, -, -⟩)
          · exact ⟨d, by rw [h, hd], hne⟩
          · rw [hn] at hv
            cases hv
      · constructor
        · rintro ⟨s, hs, hne⟩
          rw [h] at hs
          cases hs
          exact Or.inr ⟨v, e, hv, he, hne⟩
        · rintro (⟨hn, -⟩ | ⟨v', e', hv', he', hne⟩)
          · rw [hn] at hv
            cases hv
          · rw [hv] at hv'
            cases hv'
            rw [he] at he'
            cases he'
            exact ⟨e ++ dst.getD "", h, hne⟩
  · intro hinv hdst henv q hq
    cases hres : (mountAddMountPt w nsjconf src dst fstype options flags isDir mandatory
        src_env dst_env src_content src_content_len t).1.1 with
    | false =>
      rw [mountAddMountPt_false w nsjconf src dst fstype options flags isDir mandatory src_env
        dst_env src_content src_content_len t hres] at hq
      exact hinv q hq
    | true =>
      obtain ⟨p, hp, hst⟩ := mountAddMountPt_dst_stored w nsjconf src dst fstype options flags
        isDir mandatory src_env dst_env src_content src_content_len t hres
      rw [hp] at hq
      rcases List.mem_append.mp hq with hq | hq
      · exact hinv q hq
      · simp only [List.mem_singleton] at hq
        subst hq
        rcases hst with ⟨hn, h⟩ | ⟨v, e, hv, he, h⟩
        · obtain ⟨d, hd, hne⟩ := hdst hn
          exact ⟨d, by rw [h, hd], hne⟩
        · exact ⟨e ++ dst.getD "", h, henv v hv e he⟩

/-- C9, amended, on the scenario of the spec: after the bind of `/etc`, the
destination `""` registered under `dst_env = "FOO"` with `FOO=/abc` is stored
as `/abc`, and every destination of the sequence is non-empty. -/
theorem mountAddMountPt_dst_witness :
    (∀ q ∈ (confOf [etcEntry]).mountpts, ∃ s, q.dst = some s ∧ s ≠ "")
    ∧ (mountAddMountPt (worldWith fooEnv allOk) (confOf [etcEntry]) none (some "")
        (some "tmpfs") none 0 none false none (some "FOO") none 0 []).1.2.mountpts.map
          (fun p => p.dst) = [some "/etc", some "/abc"]
    ∧ ∀ q ∈ (mountAddMountPt (worldWith fooEnv allOk) (confOf [etcEntry]) none (some "")
        (some "tmpfs") none 0 none false none (some "FOO") none 0 []).1.2.mountpts,
        ∃ s, q.dst = some s ∧ s ≠ "" :=
  ⟨by decide, by decide,
    (mountAddMountPt_dst (worldWith fooEnv allOk) (confOf [etcEntry]) none (some "")
      (some "tmpfs") none 0 none false none (some "FOO") none 0 []).2 (by decide)
      (by intro h; cases h)
      (by
        intro v hv e he
        cases hv
        have h2 : some "/abc" = some e := he
        cases h2
        decide)⟩

/-! ## Order of execution -/

/-- C5 on the read-only bind of `/etc` in an environment where every call
succeeds. -/
theorem remount_only_after_pivot_witness :
    (confOf [etcEntry]).clone_newns = true
    ∧ ∃ new, (mountInitNsInternal (worldWith noEnv allOk) (confOf [etcEntry]) []).2 = [] ++ new
      ∧ (∀ pre e post, new = pre ++ e :: post → e.frame.isRemountRO = true →
          ∃ p0 p1 r1 r2 r3 r4, pre = p0 ++ pivotEvents (confOf [etcEntry]).cwd r1 r2 r3 r4 ++ p1
            ∧ r1.rc ≠ -1 ∧ r2.rc ≠ -1 ∧ r3.rc ≠ -1 ∧ r4.rc ≠ -1)
      ∧ ((∃ e ∈ new, mandatoryMountFailure e) →
          (mountInitNsInternal (worldWith noEnv allOk) (confOf [etcEntry]) []).1.1 = false
          ∧ ∀ e ∈ new, e.call.isPivot = false ∧ e.frame.isRemountRO = false) :=
  ⟨rfl, remount_only_after_pivot (worldWith noEnv allOk) (confOf [etcEntry]) [] rfl⟩

/-- C8 on an entry with inline content and the read-only flag, in an
environment where every call succeeds: `mountMount` returns `true`, and the
one `mount` call it issues carries `MS_BIND | MS_REC` and not `MS_RDONLY`. -/
theorem mountMount_mount_flags_witness :
    (mountMount (worldWith noEnv allOk) { passwdEntry with flags := MS_RDONLY ||| MS_NOSUID }
        "/tmp/nsjail.root" "/tmp/nsjail.tmp" []).1.1 = true
    ∧ (mountMount (worldWith noEnv allOk) { passwdEntry with flags := MS_RDONLY ||| MS_NOSUID }
        "/tmp/nsjail.root" "/tmp/nsjail.tmp" []).2.filterMap
      (fun e => match e.call with
        | Call.mount _ _ _ fl _ => some fl
        | _ => none) = [MS_NOSUID ||| MS_BIND ||| MS_REC]
    ∧ ∃ new, (mountMount (worldWith noEnv allOk)
          { passwdEntry with flags := MS_RDONLY ||| MS_NOSUID }
          "/tmp/nsjail.root" "/tmp/nsjail.tmp" []).2 = [] ++ new
        ∧ (∀ e ∈ new, ∀ s d f fl o, e.call = Call.mount s d f fl o →
            fl = ((MS_RDONLY ||| MS_NOSUID) ||| (MS_BIND ||| MS_REC)) &&& notW MS_RDONLY)
        ∧ (new.filter (fun e => e.call.isMount)).length = 1 := by
  refine ⟨by decide, by decide, ?_⟩
  obtain ⟨new, hnew, h, -, -, -, hlen⟩ := mountMount_mount_flags (worldWith noEnv allOk)
    { passwdEntry with flags := MS_RDONLY ||| MS_NOSUID } "/tmp/nsjail.root" "/tmp/nsjail.tmp" []
  exact ⟨new, hnew, fun e he s d f fl o hc => (h e he s d f fl o hc).1, hlen (by decide)⟩

/-! ## Where the code departs from the claims -/

/-- C4 evaluated: the non-mandatory tmpfs entry is first in the sequence and
the creation of its destination's parent directories fails;
`mountInitNsInternal` returns `false` and `mountMount` never runs on the
second entry. The same happens when the write of a non-mandatory entry's
inline content fails. When instead the `mount` call of the non-mandatory entry
fails, the pass goes on and `mountInitNsInternal` returns `true`. -/
theorem nonmandatory_failure_aborts :
    tmpEntry.mandatory = false ∧ passwdEntry.mandatory = false
    ∧ (mountInitNsInternal
        (worldWith noEnv (fun c => c = Call.utilCreateDirRecursively "/tmp/nsjail.root//tmp"))
        (confOf [tmpEntry, etcEntry]) []).1.1 = false
    ∧ (mountInitNsInternal
        (worldWith noEnv (fun c => c = Call.utilCreateDirRecursively "/tmp/nsjail.root//tmp"))
        (confOf [tmpEntry, etcEntry]) []).2.filterMap mountVisit = [tmpEntry]
    ∧ (mountInitNsInternal
        (worldWith noEnv (fun c => c = Call.utilWriteToFd 3 [114, 111, 111, 116] 4))
        (confOf [passwdEntry, etcEntry]) []).1.1 = false
    ∧ (mountInitNsInternal
        (worldWith noEnv (fun c => c = Call.utilWriteToFd 3 [114, 111, 111, 116] 4))
        (confOf [passwdEntry, etcEntry]) []).2.filterMap mountVisit = [passwdEntry]
    ∧ (mountInitNsInternal
        (worldWith noEnv (fun c => c = Call.mount (some "none") (some "/tmp/nsjail.root//tmp")
          (some "tmpfs") 0 none))
        (confOf [tmpEntry, etcEntry]) []).1.1 = true
    ∧ (mountInitNsInternal
        (worldWith noEnv (fun c => c = Call.mount (some "none") (some "/tmp/nsjail.root//tmp")
          (some "tmpfs") 0 none))
        (confOf [tmpEntry, etcEntry]) []).2.filterMap mountVisit = [tmpEntry, etcEntry] := by
  decide

/-- C10 evaluated: the calls `mountMount` makes on an entry with inline
content (a) when the write to the temp file fails and (b) when the entry is
mandatory and its `mount` call fails. In both runs `mkostemp` has created the
temp file and `mountMount` returns `false` without an `unlink`. Run (c), the
same failing `mount` on the non-mandatory entry, ends with the `unlink`. -/
theorem temp_file_left_behind :
    (mountMount (worldWith noEnv (fun c => c = Call.utilWriteToFd 3 [114, 111, 111, 116] 4))
        passwdEntry "/tmp/nsjail.root" "/tmp/nsjail.tmp" []).1.1 = false
    ∧ (mountMount (worldWith noEnv (fun c => c = Call.utilWriteToFd 3 [114, 111, 111, 116] 4))
        passwdEntry "/tmp/nsjail.root" "/tmp/nsjail.tmp" []).2.map (fun e => (e.call, e.ret.rc))
      = [ (Call.utilCreateDirRecursively "/tmp/nsjail.root//etc/passwd", 1),
          (Call.openFile "/tmp/nsjail.root//etc/passwd" 524352 420, 3),
          (Call.close 3, 0),
          (Call.mkostemp "/tmp/nsjail.tmp/file.XXXXXX" 524288, 3),
          (Call.utilWriteToFd 3 [114, 111, 111, 116] 4, 0),
          (Call.close 3, 0) ]
    ∧ (mountMount (worldWith noEnv Call.isMount) passwdEntryMandatory
        "/tmp/nsjail.root" "/tmp/nsjail.tmp" []).1.1 = false
    ∧ (mountMount (worldWith noEnv Call.isMount) passwdEntryMandatory
        "/tmp/nsjail.root" "/tmp/nsjail.tmp" []).2.map (fun e => (e.call, e.ret.rc))
      = [ (Call.utilCreateDirRecursively "/tmp/nsjail.root//etc/passwd", 1),
          (Call.openFile "/tmp/nsjail.root//etc/passwd" 524352 420, 3),
          (Call.close 3, 0),
          (Call.mkostemp "/tmp/nsjail.tmp/file.XXXXXX" 524288, 3),
          (Call.utilWriteToFd 3 [114, 111, 111, 116] 4, 1),
          (Call.close 3, 0),
          (Call.mount (some "/tmp/nsjail.tmp/file.Ab3dE9") (some "/tmp/nsjail.root//etc/passwd")
            none 20480 none, -1) ]
    ∧ (mountMount (worldWith noEnv Call.isMount) passwdEntry
        "/tmp/nsjail.root" "/tmp/nsjail.tmp" []).1.1 = true
    ∧ (mountMount (worldWith noEnv Call.isMount) passwdEntry
        "/tmp/nsjail.root" "/tmp/nsjail.tmp" []).2.map (fun e => (e.call, e.ret.rc))
      = [ (Call.utilCreateDirRecursively "/tmp/nsjail.root//etc/passwd", 1),
          (Call.openFile "/tmp/nsjail.root//etc/passwd" 524352 420, 3),
          (Call.close 3, 0),
          (Call.mkostemp "/tmp/nsjail.tmp/file.XXXXXX" 524288, 3),
          (Call.utilWriteToFd 3 [114, 111, 111, 116] 4, 1),
          (Call.close 3, 0),
          (Call.mount (some "/tmp/nsjail.tmp/file.Ab3dE9") (some "/tmp/nsjail.root//etc/passwd")
            none 20480 none, -1),
          (Call.unlink "/tmp/nsjail.tmp/file.Ab3dE9", 0) ] := by
  decide

end NsJail
